import Mathlib

/-!
# RTOS_SteppingMotor : emergency protocol and HTTP parameter endpoint

A shallow embedding of `emergency_task` (src/code/main.c) and of the request handling of
`server_application_thread`, `process_query_string` and `parse_query_parameter`
(src/code/server.c), with the properties the specification states about them.

Conventions of the embedding.
* `u8` values are natural numbers below 256; `&` is `&&&` on `Nat`.
* `float`/`double` values in the parameter store are `CFloat`: a finite value (a rational), an
  infinity or NaN, with the comparisons of C (every comparison with NaN is false); rounding of
  decimal text to binary is left to the conversion functions, which are a parameter. The speed
  read by `emergency_task` is a finite value, since `abs` needs it converted to `int`.
* A C string is the list of its characters before the terminating NUL.
* One pass of a task loop is a function from the state before the pass and the values the
  environment supplies during the pass to the state after it and the list of calls made.
-/

namespace RTOS_SteppingMotor

/-! ## main.c : emergency_task -/

/-- Calls that `emergency_task` makes on the scheduler, the GPIO block, the LED mailbox and the
stepper driver. -/
inductive Action
  /-- The call `XGpio_DiscreteWrite(&red, channel, data)`. -/
  | XGpio_DiscreteWrite (channel : Nat) (data : Nat)
  /-- The call `vTaskResume(motorTaskHandle)`. -/
  | vTaskResume
  /-- The call `vTaskSuspend(motorTaskHandle)`. -/
  | vTaskSuspend
  /-- The call `stepper_initialize()`. -/
  | stepperInit
  /-- The call `stepper_disable_motor()`. -/
  | stepper_disable_motor
  /-- The call `xQueueSend(led_queue, &var, 0)` with `var` holding the given value. -/
  | xQueueSend_led (var : Nat)
  /-- The call `stepper_setup_stop()`. -/
  | stepper_setup_stop
  deriving DecidableEq, Repr

/-- The two locals of `emergency_task` that live across passes of its loop:
`u8 emergency` and `u8 z`. -/
structure EmergencyState where
  emergency : Nat
  z : Nat
  deriving DecidableEq, Repr

/-- The locals during one pass, with the calls made so far in that pass. -/
structure Frame where
  emergency : Nat
  z : Nat
  trace : List Action
  deriving DecidableEq, Repr

/-- Non-blocking `xQueueReceive(emergency_queue, &emergency, 0)`: a queued byte overwrites the
buffer, an empty queue leaves the buffer as it was. -/
def xQueueReceive_u8 (queued : Option Nat) (buffer : Nat) : Nat :=
  match queued with
  | some v => v % 256
  | none => buffer

/-- Conversion of a floating value to `int`: truncation toward zero. -/
def c_float_to_int (x : ℚ) : Int := if 0 ≤ x then ⌊x⌋ else ⌈x⌉

/-- The C library function `int abs(int)`. -/
def c_abs (n : Int) : Int := if n < 0 then -n else n

/-- The test `3.0 < abs(stepper_get_speed())` of main.c line 206. `abs` takes an `int`, so the
speed is converted to `int` first; the `int` result is compared as a `double`. The speed is a
floating value: server.c stores the result of `stepper_get_speed()` in the floating field
`rotational_speed` (the driver header is not among the sources). -/
def speed_over_threshold (speed : ℚ) : Bool :=
  decide ((3 : ℚ) < ((c_abs (c_float_to_int speed) : Int) : ℚ))

/-- Logical negation `!z` stored back into a `u8`. -/
def c_lnot (z : Nat) : Nat := if z = 0 then 1 else 0

/-- Lines 194-200: the resume branch, which ends with `continue`. -/
def resume_block (f : Frame) : Frame :=
  { emergency := 0
    z := f.z
    trace := f.trace ++ [Action.XGpio_DiscreteWrite 2 0x0, Action.vTaskResume] }

/-- Lines 201-204: the blink branch. -/
def blink_block (f : Frame) : Frame :=
  if f.emergency &&& 0x20 ≠ 0 then
    { emergency := f.emergency
      z := c_lnot f.z
      trace := f.trace ++ [Action.XGpio_DiscreteWrite 2 (f.z <<< 2)] }
  else f

/-- Lines 205-211: the conditional soft stop. `none` is the `continue` of line 206. -/
def soft_stop_block (speed : ℚ) (f : Frame) : Option Frame :=
  if f.emergency &&& 0x10 ≠ 0 then
    if speed_over_threshold speed then none
    else
      some { emergency := f.emergency &&& 0x6F
             z := f.z
             trace := f.trace ++
               [Action.vTaskSuspend, Action.stepperInit, Action.stepper_disable_motor] }
  else some f

/-- Lines 212-218: the hard stop. -/
def hard_stop_block (f : Frame) : Frame :=
  if f.emergency &&& 0x1 ≠ 0 then
    { emergency := 0x30
      z := f.z
      trace := f.trace ++ [Action.xQueueSend_led 3, Action.stepper_setup_stop] }
  else f

/-- One pass of the `while (1)` loop of `emergency_task` (lines 184-220), after the delay.
`queued` is the content of the Emergency mailbox at the receive, `speed` the value
`stepper_get_speed()` returns if it is called in this pass. -/
def emergency_frame (st : EmergencyState) (queued : Option Nat) (speed : ℚ) : Frame :=
  let f0 : Frame :=
    { emergency := xQueueReceive_u8 queued st.emergency, z := st.z, trace := [] }
  if f0.emergency ≠ 0 then
    if f0.emergency &&& 0x2 ≠ 0 then resume_block f0
    else
      let f1 := blink_block f0
      match soft_stop_block speed f1 with
      | none => f1
      | some f2 => hard_stop_block f2
  else f0

/-- One evaluation cycle: the locals after the pass and the calls made during it. -/
def emergency_cycle (st : EmergencyState) (queued : Option Nat) (speed : ℚ) :
    EmergencyState × List Action :=
  let f := emergency_frame st queued speed
  ({ emergency := f.emergency, z := f.z }, f.trace)

/-- Consecutive cycles; each input is the mailbox content and the driver speed of one cycle.
The result is the final locals and all calls made, in order. -/
def emergency_run (st : EmergencyState) :
    List (Option Nat × ℚ) → EmergencyState × List Action
  | [] => (st, [])
  | (queued, speed) :: rest =>
    let r1 := emergency_cycle st queued speed
    let r2 := emergency_run r1.1 rest
    (r2.1, r1.2 ++ r2.2)

/-- Scheduler state of the Motion Task after a sequence of calls, starting from `s`:
`vTaskSuspend` suspends it, `vTaskResume` makes it ready again. -/
def motionSuspendedFrom (s : Bool) : List Action → Bool
  | [] => s
  | Action.vTaskSuspend :: rest => motionSuspendedFrom true rest
  | Action.vTaskResume :: rest => motionSuspendedFrom false rest
  | _ :: rest => motionSuspendedFrom s rest

/-- Scheduler state of the Motion Task after a sequence of calls, the task running at first. -/
def motionSuspended (trace : List Action) : Bool := motionSuspendedFrom false trace

/-- Inputs of cycles during which the Emergency mailbox stays empty. -/
def quietCycles (speeds : List ℚ) : List (Option Nat × ℚ) :=
  speeds.map (fun s => (none, s))

/-! ## server.c : the parameter store, the query parser and the two routes

The header that declares `motor_parameters_t` and the global `motor_pars` is not among the
sources; the fields and their types are taken from their uses in server.c (the conversions of
`parse_query_parameter` and the `printf` formats of the responses). -/

/-- Values of the C types `float` and `double`: a finite value, taken as a rational, one of the
two infinities, or NaN. -/
inductive CFloat
  | num (q : ℚ)
  | pos_inf
  | neg_inf
  | nan
  deriving DecidableEq, Repr

/-- The comparison `x < y` of C on floating values: false whenever NaN is involved. -/
def CFloat.blt : CFloat → CFloat → Bool
  | CFloat.num a, CFloat.num b => decide (a < b)
  | CFloat.num _, CFloat.pos_inf => true
  | CFloat.neg_inf, CFloat.num _ => true
  | CFloat.neg_inf, CFloat.pos_inf => true
  | _, _ => false

/-- The comparison `x <= y` of C on floating values: false whenever NaN is involved. -/
def CFloat.ble : CFloat → CFloat → Bool
  | CFloat.num a, CFloat.num b => decide (a ≤ b)
  | CFloat.num _, CFloat.pos_inf => true
  | CFloat.neg_inf, CFloat.num _ => true
  | CFloat.neg_inf, CFloat.pos_inf => true
  | CFloat.pos_inf, CFloat.pos_inf => true
  | CFloat.neg_inf, CFloat.neg_inf => true
  | _, _ => false

instance CFloat.instLT : LT CFloat := ⟨fun x y => CFloat.blt x y = true⟩

instance CFloat.instLE : LE CFloat := ⟨fun x y => CFloat.ble x y = true⟩

instance CFloat.instZero : OfNat CFloat 0 := ⟨CFloat.num 0⟩

instance CFloat.decidableLT (x y : CFloat) : Decidable (x < y) :=
  inferInstanceAs (Decidable (CFloat.blt x y = true))

instance CFloat.decidableLE (x y : CFloat) : Decidable (x ≤ y) :=
  inferInstanceAs (Decidable (CFloat.ble x y = true))

/-- Modelled from the spec: the record `motor_parameters_t`, whose declaring header is not among
the sources. Three floating fields, a signed `current_position`, an unsigned `final_position`,
and the integers `step_mode` and `dwell_time`, in agreement with the conversions of
`parse_query_parameter` and the formats `%.2f`, `%ld`, `%lu`, `%d` of the responses. -/
structure motor_parameters_t where
  rotational_speed : CFloat
  rotational_accel : CFloat
  rotational_decel : CFloat
  current_position : Int
  final_position : Nat
  step_mode : Int
  dwell_time : Int
  deriving DecidableEq, Repr

/-- The C library conversions called by `parse_query_parameter`, each taken at the value it
returns for a string (for `atof` the value as stored in a `float`, NaN and the infinities
included), and the width in bits of `unsigned long` on the target. -/
structure CLib where
  atof : List Char → CFloat
  atol : List Char → Int
  atoi : List Char → Int
  ulong_bits : Nat

/-- Conversion of a `long` to `unsigned long`: reduction modulo `2 ^ ulong_bits`. -/
def c_long_to_ulong (lib : CLib) (v : Int) : Nat := (v % (2 : Int) ^ lib.ulong_bits).toNat

/-- The function `parse_query_parameter` (server.c lines 227-287). Returns `recognized` and the
record `params` points to after the call. -/
def parse_query_parameter (lib : CLib) (name value : List Char) (params : motor_parameters_t) :
    Int × motor_parameters_t :=
  if name = ['r', 's'] then
    let speed := lib.atof value
    let speed := if speed < 0 then 0 else speed
    (1, { params with rotational_speed := speed })
  else if name = ['r', 'a'] then
    let accel := lib.atof value
    let accel := if accel < 0 then 0 else accel
    (1, { params with rotational_accel := accel })
  else if name = ['r', 'd'] then
    let decel := lib.atof value
    let decel := if decel < 0 then 0 else decel
    (1, { params with rotational_decel := decel })
  else if name = ['c', 'i', 's'] then
    let cur_pos := lib.atol value
    (1, { params with current_position := cur_pos })
  else if name = ['f', 'i', 's'] then
    let fin_pos := c_long_to_ulong lib (lib.atol value)
    (1, { params with final_position := fin_pos })
  else if name = ['s', 'm'] then
    let smode := lib.atoi value
    let smode := if smode < 0 ∨ smode > 2 then 0 else smode
    (1, { params with step_mode := smode })
  else if name = ['d', 't'] then
    let dt := lib.atoi value
    let dt := if dt < 0 then 0 else dt
    (1, { params with dwell_time := dt })
  else
    (0, params)

/-- The conversion `%63[...]` of `sscanf`: the longest run of accepted characters at the start
of the input, at most `width` of them. -/
def scan_set (width : Nat) (accept : Char → Bool) (s : List Char) : List Char :=
  (s.take width).takeWhile accept

/-- The call `sscanf(params_start, "%63[^=]=%63[^& ]%n", name, value, &bytesRead)` of line 211:
`some (name, value, bytesRead)` when it returns 2, `none` otherwise. Each `%[` conversion needs
at least one character. -/
def sscanf_pair (s : List Char) : Option (List Char × List Char × Nat) :=
  let name := scan_set 63 (fun c => c != '=') s
  if name = [] then none
  else
    match s.drop name.length with
    | [] => none
    | c :: r =>
      if c = '=' then
        let value := scan_set 63 (fun c => c != '&' && c != ' ') r
        if value = [] then none
        else some (name, value, name.length + 1 + value.length)
      else none

/-- The C library function `strchr`: the part of the string from the first occurrence of `c`. -/
def strchr : List Char → Char → Option (List Char)
  | [], _ => none
  | x :: rest, c => if x = c then some (x :: rest) else strchr rest c

/-- Lines 213-218: advance past the pair, then past one `&`. The result is the new
`params_start`. -/
def advance (params_start : List Char) (bytesRead : Nat) : List Char :=
  let p := params_start.drop bytesRead
  if p.head? = some '&' then p.drop 1 else p

/-- The `while (1)` loop of `process_query_string` (lines 209-222), run for at most `fuel`
passes. `none` means the passes were used up before the loop left. -/
def query_loop (lib : CLib) :
    Nat → List Char → motor_parameters_t → Option motor_parameters_t
  | 0, _, _ => none
  | fuel + 1, params_start, params =>
    match sscanf_pair params_start with
    | some (name, value, bytesRead) =>
      let params1 := (parse_query_parameter lib name value params).2
      let next := advance params_start bytesRead
      if next = [] then some params1
      else query_loop lib fuel next params1
    | none => some params

/-- The function `process_query_string` (lines 197-223) with a bound on the passes of its
loop. -/
def process_query_string_fuel (lib : CLib) (fuel : Nat) (query : List Char)
    (params : motor_parameters_t) : Option motor_parameters_t :=
  match strchr query '?' with
  | none => some params
  | some params_start => query_loop lib fuel (params_start.drop 1) params

/-- The function `process_query_string`: as many passes as the request has characters are
allowed, which is never used up (`process_query_string_terminates`). -/
def process_query_string (lib : CLib) (query : List Char) (params : motor_parameters_t) :
    Option motor_parameters_t :=
  process_query_string_fuel lib query.length query params

/-- What the endpoint answers: the values handed to `snprintf` for the JSON body. -/
inductive Response
  /-- Body of `/getParams`: the seven fields and `direction`. -/
  | getParams (reported : motor_parameters_t) (direction : Int)
  /-- Body of `/setParams`: the seven fields. -/
  | setParams (reported : motor_parameters_t)
  /-- The 404 body. -/
  | not_found
  deriving DecidableEq, Repr

/-- The global `motor_pars`, the Motor-Command mailbox `motor_queue` (oldest first), and a record
of every snapshot the endpoint has placed on the mailbox so far. -/
structure ServerState where
  motor_pars : motor_parameters_t
  motor_queue : List motor_parameters_t
  placed : List motor_parameters_t
  deriving DecidableEq, Repr

/-- Capacity of `motor_queue`: `xQueueCreate(25, sizeof(motor_parameters_t))`, main.c line 45. -/
def MOTOR_QUEUE_LENGTH : Nat := 25

/-- The call `xQueueSend(motor_queue, &motor_pars, 0)` with no wait: the snapshot is appended
when there is room and dropped when the queue is full. -/
def xQueueSend_motor (st : ServerState) : ServerState :=
  if st.motor_queue.length < MOTOR_QUEUE_LENGTH then
    { st with motor_queue := st.motor_queue ++ [st.motor_pars]
              placed := st.placed ++ [st.motor_pars] }
  else st

/-- The text `GET /getParams`. -/
def GET_getParams : List Char := "GET /getParams".toList

/-- The text `GET /setParams`. -/
def GET_setParams : List Char := "GET /setParams".toList

/-- The test `strncmp(recv_buf, literal, 14) == 0` for a 14-character literal. -/
def strncmp14_eq (recv_buf literal : List Char) : Bool := recv_buf.take 14 == literal

/-- One accepted connection of `server_application_thread` (lines 98-177): `recv_buf` is the
request read, `stepper_pos` and `stepper_speed` are what `stepper_get_pos()` and
`stepper_get_speed()` return if called. -/
def handle_request (lib : CLib) (st : ServerState) (recv_buf : List Char) (stepper_pos : Int)
    (stepper_speed : CFloat) : Option (ServerState × Response) :=
  if strncmp14_eq recv_buf GET_getParams then
    let pars := { st.motor_pars with current_position := stepper_pos
                                     rotational_speed := stepper_speed }
    let computed_direction : Int := if pars.rotational_speed ≥ 0 then 1 else 0
    some ({ st with motor_pars := pars }, Response.getParams pars computed_direction)
  else if strncmp14_eq recv_buf GET_setParams then
    match process_query_string lib recv_buf st.motor_pars with
    | none => none
    | some pars =>
      let st1 := xQueueSend_motor { st with motor_pars := pars }
      some (st1, Response.setParams st1.motor_pars)
  else some (st, Response.not_found)

/-- What happens around the mailbox: the endpoint serves a request, or the Motion Task takes the
oldest command off `motor_queue` (main.c line 156). -/
inductive Event
  | request (recv_buf : List Char) (stepper_pos : Int) (stepper_speed : CFloat)
  | motor_receive
  deriving DecidableEq, Repr

/-- The server state after one event. -/
def server_step (lib : CLib) (st : ServerState) : Event → Option ServerState
  | Event.request recv_buf stepper_pos stepper_speed =>
    (handle_request lib st recv_buf stepper_pos stepper_speed).map Prod.fst
  | Event.motor_receive => some { st with motor_queue := st.motor_queue.drop 1 }

/-- The server state after a sequence of events. -/
def server_run (lib : CLib) (st : ServerState) : List Event → Option ServerState
  | [] => some st
  | e :: rest =>
    match server_step lib st e with
    | none => none
    | some st1 => server_run lib st1 rest

/-- Modelled from the spec: the global `motor_pars` at process start, declared in a header that
is not among the sources; the store is initialized to zero values. -/
def motor_pars_zero : motor_parameters_t :=
  { rotational_speed := 0, rotational_accel := 0, rotational_decel := 0
    current_position := 0, final_position := 0, step_mode := 0, dwell_time := 0 }

/-- The server at start: zeroed store, empty mailbox. -/
def server_start : ServerState :=
  { motor_pars := motor_pars_zero, motor_queue := [], placed := [] }

/-- The names `parse_query_parameter` compares against. -/
def recognized_keys : List (List Char) :=
  [['r', 's'], ['r', 'a'], ['r', 'd'], ['c', 'i', 's'], ['f', 'i', 's'], ['s', 'm'], ['d', 't']]

/-- A query string made of `key=value` pairs separated by `&`. -/
def query_of_pairs : List (List Char × List Char) → List Char
  | [] => []
  | [(k, v)] => k ++ '=' :: v
  | (k, v) :: rest => k ++ '=' :: v ++ '&' :: query_of_pairs rest

/-- The specification's reading of a `/setParams` parse: the recognized pairs are merged into
the store in order, the other pairs are skipped. -/
def merge_recognized (lib : CLib) (pairs : List (List Char × List Char))
    (params : motor_parameters_t) : motor_parameters_t :=
  (pairs.filter (fun kv => decide (kv.1 ∈ recognized_keys))).foldl
    (fun p kv => (parse_query_parameter lib kv.1 kv.2 p).2) params

/-- A pair both `%63[...]` conversions read whole: a key of 1 to 63 characters without `=`, a
value of 1 to 63 characters without `&` and without a space. -/
def pair_fits (kv : List Char × List Char) : Prop :=
  kv.1 ≠ [] ∧ kv.1.length ≤ 63 ∧ '=' ∉ kv.1 ∧
  kv.2 ≠ [] ∧ kv.2.length ≤ 63 ∧ '&' ∉ kv.2 ∧ ' ' ∉ kv.2

/-- What may follow the last pair in the request: nothing, or a space and then text whose first
64 characters hold no `=` (as in ` HTTP/1.1` and a short header), so that the next `sscanf`
fails. -/
def tail_stops (tail : List Char) : Prop :=
  tail = [] ∨ (tail.head? = some ' ' ∧ '=' ∉ tail.take 64)

instance pair_fits_decidable (kv : List Char × List Char) : Decidable (pair_fits kv) := by
  unfold pair_fits
  infer_instance

instance tail_stops_decidable (tail : List Char) : Decidable (tail_stops tail) := by
  unfold tail_stops
  infer_instance

/-- The C library predicate `isspace` in the C locale. -/
def c_isspace (c : Char) : Bool := c.toNat == 32 || (9 ≤ c.toNat && c.toNat ≤ 13)

/-- Value of a run of decimal digits. -/
def digits_value (ds : List Char) : Nat :=
  ds.foldl (fun acc c => 10 * acc + (c.toNat - 48)) 0

/-- Optional sign at the start of a number: whether it is `-`, and the rest. -/
def read_sign (s : List Char) : Bool × List Char :=
  match s with
  | [] => (false, [])
  | c :: r => if c = '-' then (true, r) else if c = '+' then (false, r) else (false, c :: r)

/-- Decimal `strtol` without range handling: white space, optional sign, digits; whatever
follows is ignored, and no digits give 0. -/
def strtol_dec (s : List Char) : Int :=
  let t := read_sign (s.dropWhile c_isspace)
  let n : Int := digits_value (t.2.takeWhile Char.isDigit)
  if t.1 then -n else n

/-- Decimal `strtod` for the forms `digits` and `digits.digits` with optional sign, and for the
texts `nan`, `inf` and `infinity` in any letter case (exponents and hexadecimal are not
covered). -/
def strtod_dec (s : List Char) : CFloat :=
  let t := read_sign (s.dropWhile c_isspace)
  let word := (t.2.take 3).map Char.toLower
  if word = ['n', 'a', 'n'] then CFloat.nan
  else if word = ['i', 'n', 'f'] then (if t.1 then CFloat.neg_inf else CFloat.pos_inf)
  else
    let ip := t.2.takeWhile Char.isDigit
    let after := t.2.dropWhile Char.isDigit
    let fp := match after with
      | [] => []
      | c :: r => if c = '.' then r.takeWhile Char.isDigit else []
    let v : ℚ := (digits_value ip : ℚ) + (digits_value fp : ℚ) / (10 : ℚ) ^ fp.length
    CFloat.num (if t.1 then -v else v)

/-- A 32-bit target with the decimal conversions above. -/
def lib32 : CLib :=
  { atof := strtod_dec, atol := strtol_dec, atoi := strtol_dec, ulong_bits := 32 }

/-! ### Properties of emergency_task -/

theorem c_abs_eq_abs (n : Int) : c_abs n = |n| := by
  unfold c_abs
  split
  · rename_i h; rw [abs_of_neg h]
  · rename_i h; rw [abs_of_nonneg (not_lt.mp h)]

theorem abs_c_float_to_int_le (x : ℚ) : |((c_float_to_int x : Int) : ℚ)| ≤ |x| := by
  unfold c_float_to_int
  split
  · rename_i h
    have h1 : (0 : ℚ) ≤ ⌊x⌋ := by exact_mod_cast Int.floor_nonneg.mpr h
    rw [abs_of_nonneg h1, abs_of_nonneg h]
    exact Int.floor_le x
  · rename_i h
    push_neg at h
    have h1 : ((⌈x⌉ : Int) : ℚ) ≤ 0 := by
      exact_mod_cast Int.ceil_le.mpr (by simpa using h.le)
    rw [abs_of_nonpos h1, abs_of_neg h]
    linarith [Int.le_ceil x]

/-- A speed of magnitude at most 3.0 never defers the soft stop. -/
theorem speed_over_threshold_of_abs_le (speed : ℚ) (h : |speed| ≤ 3) :
    speed_over_threshold speed = false := by
  unfold speed_over_threshold
  rw [decide_eq_false_iff_not, not_lt, c_abs_eq_abs]
  push_cast
  exact le_trans (abs_c_float_to_int_le speed) h

/-- A speed whose magnitude is at least 4.0 always defers the soft stop. -/
theorem speed_over_threshold_of_four_le (speed : ℚ) (h : 4 ≤ |speed|) :
    speed_over_threshold speed = true := by
  unfold speed_over_threshold
  rw [decide_eq_true_iff, c_abs_eq_abs]
  push_cast
  unfold c_float_to_int
  split
  · rename_i h0
    rw [abs_of_nonneg h0] at h
    have h4 : (4 : Int) ≤ ⌊speed⌋ := Int.le_floor.mpr (by exact_mod_cast h)
    have h5 : (4 : ℚ) ≤ ((⌊speed⌋ : Int) : ℚ) := by exact_mod_cast h4
    rw [abs_of_nonneg (by linarith)]
    linarith
  · rename_i h0
    push_neg at h0
    rw [abs_of_neg h0] at h
    have h4 : ⌈speed⌉ ≤ (-4 : Int) := Int.ceil_le.mpr (by push_cast; linarith)
    have h5 : ((⌈speed⌉ : Int) : ℚ) ≤ -4 := by exact_mod_cast h4
    rw [abs_of_nonpos (by linarith)]
    linarith

theorem land_mask_one (e : Nat) : (e &&& 0x6F) &&& 0x1 = e &&& 0x1 := by
  rw [Nat.land_assoc]
  rfl

/-- The pass when the evaluated signal has the resume bit set. -/
theorem emergency_cycle_resume (st : EmergencyState) (queued : Option Nat) (speed : ℚ)
    (hres : xQueueReceive_u8 queued st.emergency &&& 0x2 ≠ 0) :
    emergency_cycle st queued speed =
      ({ emergency := 0, z := st.z },
        [Action.XGpio_DiscreteWrite 2 0, Action.vTaskResume]) := by
  have hne : xQueueReceive_u8 queued st.emergency ≠ 0 := by
    intro h0
    rw [h0] at hres
    exact hres (Nat.zero_and _)
  simp [emergency_cycle, emergency_frame, resume_block, hne, hres]

/-- C1. Resume precedence: whenever the signal evaluated in a cycle (the received byte, or the
stored one when the mailbox is empty) has the resume bit 0x02 set, whatever its other bits and
whatever the speed, the cycle stores signal 0, leaves the blink phase `z` as it was, and makes
exactly two calls: the write of 0 to the stop indicator and the resume of the Motion Task.
No blink write, suspend, driver initialize/disable, LED push or controlled stop occurs. -/
theorem resume_precedence (st : EmergencyState) (queued : Option Nat) (speed : ℚ)
    (hres : xQueueReceive_u8 queued st.emergency &&& 0x2 ≠ 0) :
    (emergency_cycle st queued speed).1 = { emergency := 0, z := st.z } ∧
    (emergency_cycle st queued speed).2 =
      [Action.XGpio_DiscreteWrite 2 0, Action.vTaskResume] := by
  rw [emergency_cycle_resume st queued speed hres]
  exact ⟨rfl, rfl⟩

/-- Witness for C1: signal 0xFF (every bit set) received while the motor runs at speed 10. -/
theorem resume_precedence_witness :
    (emergency_cycle { emergency := 0, z := 1 } (some 0xFF) 10).1 = { emergency := 0, z := 1 } ∧
    (emergency_cycle { emergency := 0, z := 1 } (some 0xFF) 10).2 =
      [Action.XGpio_DiscreteWrite 2 0, Action.vTaskResume] :=
  resume_precedence { emergency := 0, z := 1 } (some 0xFF) 10 (by decide)

theorem blink_block_emergency (f : Frame) : (blink_block f).emergency = f.emergency := by
  unfold blink_block
  split <;> rfl

/-- The pass when the evaluated signal is nonzero and has the resume bit clear. -/
theorem emergency_frame_of_not_resume (st : EmergencyState) (queued : Option Nat) (speed : ℚ)
    (hres : xQueueReceive_u8 queued st.emergency &&& 0x2 = 0)
    (hne : xQueueReceive_u8 queued st.emergency ≠ 0) :
    emergency_frame st queued speed =
      match soft_stop_block speed
          (blink_block ⟨xQueueReceive_u8 queued st.emergency, st.z, []⟩) with
      | none => blink_block ⟨xQueueReceive_u8 queued st.emergency, st.z, []⟩
      | some f2 => hard_stop_block f2 := by
  unfold emergency_frame
  simp only [ne_eq, hne, hres, not_false_eq_true, not_true_eq_false, if_true, if_false]

/-- The pass when the soft stop is deferred: only the blink branch has run. -/
theorem emergency_frame_deferred (st : EmergencyState) (queued : Option Nat) (speed : ℚ)
    (hres : xQueueReceive_u8 queued st.emergency &&& 0x2 = 0)
    (hsoft : xQueueReceive_u8 queued st.emergency &&& 0x10 ≠ 0)
    (hover : speed_over_threshold speed = true) :
    emergency_frame st queued speed =
      blink_block ⟨xQueueReceive_u8 queued st.emergency, st.z, []⟩ := by
  have hne : xQueueReceive_u8 queued st.emergency ≠ 0 := by
    intro h0
    rw [h0] at hsoft
    exact hsoft (Nat.zero_and _)
  rw [emergency_frame_of_not_resume st queued speed hres hne]
  unfold soft_stop_block
  rw [blink_block_emergency, if_pos hsoft, if_pos hover]

/-- The pass when the soft stop is carried out. -/
theorem emergency_frame_soft_stop (st : EmergencyState) (queued : Option Nat) (speed : ℚ)
    (hres : xQueueReceive_u8 queued st.emergency &&& 0x2 = 0)
    (hsoft : xQueueReceive_u8 queued st.emergency &&& 0x10 ≠ 0)
    (hover : speed_over_threshold speed = false) :
    emergency_frame st queued speed =
      hard_stop_block
        { emergency := xQueueReceive_u8 queued st.emergency &&& 0x6F
          z := (blink_block ⟨xQueueReceive_u8 queued st.emergency, st.z, []⟩).z
          trace := (blink_block ⟨xQueueReceive_u8 queued st.emergency, st.z, []⟩).trace ++
            [Action.vTaskSuspend, Action.stepperInit, Action.stepper_disable_motor] } := by
  have hne : xQueueReceive_u8 queued st.emergency ≠ 0 := by
    intro h0
    rw [h0] at hsoft
    exact hsoft (Nat.zero_and _)
  rw [emergency_frame_of_not_resume st queued speed hres hne]
  unfold soft_stop_block
  rw [blink_block_emergency, if_pos hsoft, hover]
  rfl

/-- The pass when the soft-stop bit is clear. -/
theorem emergency_frame_no_soft_stop (st : EmergencyState) (queued : Option Nat) (speed : ℚ)
    (hres : xQueueReceive_u8 queued st.emergency &&& 0x2 = 0)
    (hne : xQueueReceive_u8 queued st.emergency ≠ 0)
    (hsoft : xQueueReceive_u8 queued st.emergency &&& 0x10 = 0) :
    emergency_frame st queued speed =
      hard_stop_block (blink_block ⟨xQueueReceive_u8 queued st.emergency, st.z, []⟩) := by
  rw [emergency_frame_of_not_resume st queued speed hres hne]
  unfold soft_stop_block
  rw [blink_block_emergency, if_neg (not_not.mpr hsoft)]

theorem hard_stop_block_of_set (f : Frame) (h : f.emergency &&& 0x1 ≠ 0) :
    hard_stop_block f =
      { emergency := 0x30, z := f.z
        trace := f.trace ++ [Action.xQueueSend_led 3, Action.stepper_setup_stop] } := by
  unfold hard_stop_block
  rw [if_pos h]

theorem hard_stop_block_of_clear (f : Frame) (h : f.emergency &&& 0x1 = 0) :
    hard_stop_block f = f := by
  unfold hard_stop_block
  rw [if_neg (not_not.mpr h)]

/-- C2 (counterexample). Signal 0x03 has the hard-stop bit set, yet after one cycle the stored
signal is 0, not 0x30, and neither the LED push nor the controlled stop was issued: the resume
branch ran and ended the cycle. -/
theorem hard_stop_rewrite_fails_with_resume_bit :
    (0x03 : Nat) &&& 0x1 ≠ 0 ∧
    (emergency_cycle { emergency := 0x03, z := 1 } none 0).1.emergency ≠ 0x30 ∧
    Action.xQueueSend_led 3 ∉ (emergency_cycle { emergency := 0x03, z := 1 } none 0).2 ∧
    Action.stepper_setup_stop ∉ (emergency_cycle { emergency := 0x03, z := 1 } none 0).2 := by
  have h := emergency_cycle_resume { emergency := 0x03, z := 1 } none 0 (by decide)
  rw [h]
  decide

/-- C2 (amended). Hard-stop rewrite: for every evaluated signal with the hard-stop bit 0x01 set
and the resume bit 0x02 clear, and with either the soft-stop bit 0x10 clear or a speed of
magnitude at most 3.0, the signal stored after the cycle is exactly 0x30 and the last two calls
of the cycle are the push of marker 3 to the LED mailbox and the controlled-stop command. -/
theorem hard_stop_rewrite (st : EmergencyState) (queued : Option Nat) (speed : ℚ)
    (hhard : xQueueReceive_u8 queued st.emergency &&& 0x1 ≠ 0)
    (hres : xQueueReceive_u8 queued st.emergency &&& 0x2 = 0)
    (hsoft : xQueueReceive_u8 queued st.emergency &&& 0x10 = 0 ∨ |speed| ≤ 3) :
    (emergency_cycle st queued speed).1.emergency = 0x30 ∧
    [Action.xQueueSend_led 3, Action.stepper_setup_stop] <:+
      (emergency_cycle st queued speed).2 := by
  have hne : xQueueReceive_u8 queued st.emergency ≠ 0 := by
    intro h0
    rw [h0] at hhard
    exact hhard (Nat.zero_and _)
  unfold emergency_cycle
  by_cases h10 : xQueueReceive_u8 queued st.emergency &&& 0x10 = 0
  · rw [emergency_frame_no_soft_stop st queued speed hres hne h10,
      hard_stop_block_of_set _ (by rw [blink_block_emergency]; exact hhard)]
    exact ⟨rfl, List.suffix_append _ _⟩
  · have hover := speed_over_threshold_of_abs_le speed (hsoft.resolve_left h10)
    rw [emergency_frame_soft_stop st queued speed hres h10 hover,
      hard_stop_block_of_set _ (by
        show (xQueueReceive_u8 queued st.emergency &&& 0x6F) &&& 0x1 ≠ 0
        rw [land_mask_one]; exact hhard)]
    exact ⟨rfl, List.suffix_append _ _⟩

/-- Witness for C2 (amended): signal 0x31 (hard stop, soft stop and blink) at speed 2. -/
theorem hard_stop_rewrite_witness :
    (emergency_cycle { emergency := 0, z := 1 } (some 0x31) 2).1.emergency = 0x30 ∧
    [Action.xQueueSend_led 3, Action.stepper_setup_stop] <:+
      (emergency_cycle { emergency := 0, z := 1 } (some 0x31) 2).2 :=
  hard_stop_rewrite { emergency := 0, z := 1 } (some 0x31) 2 (by decide) (by decide)
    (Or.inr (by norm_num))

theorem speed_over_threshold_three_and_a_half : speed_over_threshold (7 / 2) = false := by
  norm_num [speed_over_threshold, c_float_to_int, c_abs, Int.floor_eq_iff]

theorem testBit_land_mask (e i : Nat) (he : e < 256) :
    (e &&& 0x6F).testBit i = (e.testBit i && decide (i ≠ 4) && decide (i ≠ 7)) := by
  rw [Nat.testBit_land]
  by_cases hi : i < 8
  · have hmask : ∀ k < 8, Nat.testBit 0x6F k = (decide (k ≠ 4) && decide (k ≠ 7)) := by decide
    rw [hmask i hi, Bool.and_assoc]
  · have h8 : (2 : Nat) ^ 8 ≤ 2 ^ i := Nat.pow_le_pow_right (by decide) (not_lt.mp hi)
    have h256 : (2 : Nat) ^ 8 = 256 := by decide
    rw [Nat.testBit_lt_two_pow (lt_of_lt_of_le he (h256 ▸ h8))]
    simp

/-- C9 (counterexample). Stored signal 0x90 (soft-stop bit and bit 7), speed 0: the cycle stores
0x00, whereas the prior signal with only the soft-stop and resume bits masked off is 0x80; bit 7
was set before the cycle and is clear after it. -/
theorem soft_stop_mask_clears_bit_seven :
    (0x90 : Nat) < 256 ∧ (0x90 : Nat) &&& 0x10 ≠ 0 ∧ (0x90 : Nat) &&& 0x2 = 0 ∧
    (0x90 : Nat) &&& 0x1 = 0 ∧ |(0 : ℚ)| ≤ 3 ∧
    (emergency_cycle { emergency := 0x90, z := 1 } none 0).1.emergency = 0x00 ∧
    (emergency_cycle { emergency := 0x90, z := 1 } none 0).1.emergency ≠ 0x90 &&& 0xED ∧
    (0x90 : Nat).testBit 7 = true ∧
    (emergency_cycle { emergency := 0x90, z := 1 } none 0).1.emergency.testBit 7 = false := by
  have h : emergency_cycle { emergency := 0x90, z := 1 } none 0 =
      ({ emergency := 0, z := 1 },
        [Action.vTaskSuspend, Action.stepperInit, Action.stepper_disable_motor]) := by
    unfold emergency_cycle
    rw [emergency_frame_soft_stop _ none 0 (by decide) (by decide)
      (speed_over_threshold_of_abs_le 0 (by norm_num))]
    decide
  rw [h]
  refine ⟨by decide, by decide, by decide, by decide, by norm_num, rfl, by decide, by decide,
    by decide⟩

/-- C9 (amended). Soft-stop mask: for every 8-bit evaluated signal with the soft-stop bit 0x10
set and the resume and hard-stop bits clear, and every speed of magnitude at most 3.0, the last
calls of the cycle are suspend Motion Task, initialize driver, disable driver, and the stored
signal is the prior signal AND 0x6F: bit 4 (0x10, soft stop) and bit 7 (0x80) are cleared and
every other bit is unchanged. -/
theorem soft_stop_mask (st : EmergencyState) (queued : Option Nat) (speed : ℚ)
    (h8 : xQueueReceive_u8 queued st.emergency < 256)
    (hsoft : xQueueReceive_u8 queued st.emergency &&& 0x10 ≠ 0)
    (hres : xQueueReceive_u8 queued st.emergency &&& 0x2 = 0)
    (hhard : xQueueReceive_u8 queued st.emergency &&& 0x1 = 0)
    (hspeed : |speed| ≤ 3) :
    [Action.vTaskSuspend, Action.stepperInit, Action.stepper_disable_motor] <:+
      (emergency_cycle st queued speed).2 ∧
    (emergency_cycle st queued speed).1.emergency =
      xQueueReceive_u8 queued st.emergency &&& 0x6F ∧
    ∀ i : Nat, (emergency_cycle st queued speed).1.emergency.testBit i =
      ((xQueueReceive_u8 queued st.emergency).testBit i && decide (i ≠ 4) && decide (i ≠ 7)) := by
  have hover := speed_over_threshold_of_abs_le speed hspeed
  unfold emergency_cycle
  rw [emergency_frame_soft_stop st queued speed hres hsoft hover,
    hard_stop_block_of_clear _ (by
      show (xQueueReceive_u8 queued st.emergency &&& 0x6F) &&& 0x1 = 0
      rw [land_mask_one]; exact hhard)]
  exact ⟨List.suffix_append _ _, rfl, fun i => testBit_land_mask _ i h8⟩

/-- Witness for C9 (amended): stored signal 0xB0 (soft stop, blink and bit 7) at speed -3. -/
theorem soft_stop_mask_witness :
    [Action.vTaskSuspend, Action.stepperInit, Action.stepper_disable_motor] <:+
      (emergency_cycle { emergency := 0xB0, z := 1 } none (-3)).2 ∧
    (emergency_cycle { emergency := 0xB0, z := 1 } none (-3)).1.emergency =
      xQueueReceive_u8 none 0xB0 &&& 0x6F ∧
    ∀ i : Nat, (emergency_cycle { emergency := 0xB0, z := 1 } none (-3)).1.emergency.testBit i =
      ((xQueueReceive_u8 none 0xB0).testBit i && decide (i ≠ 4) && decide (i ≠ 7)) :=
  soft_stop_mask { emergency := 0xB0, z := 1 } none (-3) (by decide) (by decide) (by decide)
    (by decide) (by norm_num [abs_le])

theorem motionSuspendedFrom_append (l1 l2 : List Action) (b : Bool) :
    motionSuspendedFrom b (l1 ++ l2) = motionSuspendedFrom (motionSuspendedFrom b l1) l2 := by
  induction l1 generalizing b with
  | nil => rfl
  | cons a rest ih => cases a <;> simp [motionSuspendedFrom, ih]

theorem emergency_run_cons (st : EmergencyState) (queued : Option Nat) (speed : ℚ)
    (rest : List (Option Nat × ℚ)) :
    emergency_run st ((queued, speed) :: rest) =
      ((emergency_run (emergency_cycle st queued speed).1 rest).1,
        (emergency_cycle st queued speed).2 ++
          (emergency_run (emergency_cycle st queued speed).1 rest).2) := rfl

/-- Stored signal 0x01 and an empty mailbox: the hard-stop branch alone runs. -/
theorem emergency_cycle_hard_only (z : Nat) (speed : ℚ) :
    emergency_cycle { emergency := 0x01, z := z } none speed =
      ({ emergency := 0x30, z := z },
        [Action.xQueueSend_led 3, Action.stepper_setup_stop]) := by
  unfold emergency_cycle
  have h2 : (0x01 : Nat) &&& 0x2 = 0 := by decide
  have h0 : (0x01 : Nat) ≠ 0 := by decide
  have h10 : (0x01 : Nat) &&& 0x10 = 0 := by decide
  have h20 : ¬ ((0x01 : Nat) &&& 0x20 ≠ 0) := by decide
  have h1 : (0x01 : Nat) &&& 0x1 ≠ 0 := by decide
  rw [emergency_frame_no_soft_stop ⟨0x01, z⟩ none speed h2 h0 h10]
  have hb : blink_block ⟨xQueueReceive_u8 none 0x01, z, []⟩ = ⟨0x01, z, []⟩ := by
    unfold blink_block
    exact if_neg h20
  simp only [xQueueReceive_u8] at hb ⊢
  rw [hb, hard_stop_block_of_set ⟨0x01, z, []⟩ h1]
  rfl

theorem blink_block_armed (e z : Nat) (h : e &&& 0x20 ≠ 0) :
    blink_block ⟨e, z, []⟩ = ⟨e, c_lnot z, [Action.XGpio_DiscreteWrite 2 (z <<< 2)]⟩ := by
  unfold blink_block
  rw [if_pos h]
  rfl

/-- Stored signal 0x30, empty mailbox, speed over the threshold: blink, then wait. -/
theorem emergency_cycle_armed_deferred (z : Nat) (speed : ℚ)
    (hover : speed_over_threshold speed = true) :
    emergency_cycle { emergency := 0x30, z := z } none speed =
      ({ emergency := 0x30, z := c_lnot z }, [Action.XGpio_DiscreteWrite 2 (z <<< 2)]) := by
  unfold emergency_cycle
  have h2 : (0x30 : Nat) &&& 0x2 = 0 := by decide
  have h10 : (0x30 : Nat) &&& 0x10 ≠ 0 := by decide
  rw [emergency_frame_deferred ⟨0x30, z⟩ none speed h2 h10 hover]
  have hb := blink_block_armed 0x30 z (by decide)
  simp only [xQueueReceive_u8]
  rw [hb]

/-- Stored signal 0x30, empty mailbox, speed not over the threshold: blink, then suspend. -/
theorem emergency_cycle_armed_stop (z : Nat) (speed : ℚ)
    (hover : speed_over_threshold speed = false) :
    emergency_cycle { emergency := 0x30, z := z } none speed =
      ({ emergency := 0x20, z := c_lnot z },
        [Action.XGpio_DiscreteWrite 2 (z <<< 2), Action.vTaskSuspend, Action.stepperInit,
          Action.stepper_disable_motor]) := by
  unfold emergency_cycle
  have h2 : (0x30 : Nat) &&& 0x2 = 0 := by decide
  have h10 : (0x30 : Nat) &&& 0x10 ≠ 0 := by decide
  have h1 : ((0x30 : Nat) &&& 0x6F) &&& 0x1 = 0 := by decide
  rw [emergency_frame_soft_stop ⟨0x30, z⟩ none speed h2 h10 hover]
  have hb := blink_block_armed 0x30 z (by decide)
  simp only [xQueueReceive_u8]
  rw [hb, hard_stop_block_of_clear _ h1]
  rfl

/-- Stored signal 0x20, empty mailbox: the blink branch alone runs. -/
theorem emergency_cycle_blink_only (z : Nat) (speed : ℚ) :
    emergency_cycle { emergency := 0x20, z := z } none speed =
      ({ emergency := 0x20, z := c_lnot z }, [Action.XGpio_DiscreteWrite 2 (z <<< 2)]) := by
  unfold emergency_cycle
  have h2 : (0x20 : Nat) &&& 0x2 = 0 := by decide
  have h0 : (0x20 : Nat) ≠ 0 := by decide
  have h10 : (0x20 : Nat) &&& 0x10 = 0 := by decide
  have h1 : (0x20 : Nat) &&& 0x1 = 0 := by decide
  rw [emergency_frame_no_soft_stop ⟨0x20, z⟩ none speed h2 h0 h10]
  have hb := blink_block_armed 0x20 z (by decide)
  simp only [xQueueReceive_u8]
  rw [hb, hard_stop_block_of_clear _ h1]

/-- C3 (the code at the failing input). Stored signal 0x30, as a hard stop leaves it, empty
mailbox, speed 3.5: the soft-stop bit is set, the resume bit is clear and the magnitude exceeds
3.0, yet the cycle does not leave the signal unchanged: after the blink write it suspends the
Motion Task, re-initializes and disables the driver, and stores 0x20, because `abs` truncates
3.5 to 3 before the comparison with 3.0. -/
theorem soft_stop_not_deferred_at_three_and_a_half :
    (0x30 : Nat) &&& 0x10 ≠ 0 ∧ (0x30 : Nat) &&& 0x2 = 0 ∧ (3 : ℚ) < |(7 / 2 : ℚ)| ∧
    emergency_cycle { emergency := 0x30, z := 1 } none (7 / 2) =
      ({ emergency := 0x20, z := 0 },
        [Action.XGpio_DiscreteWrite 2 4, Action.vTaskSuspend, Action.stepperInit,
          Action.stepper_disable_motor]) := by
  refine ⟨by decide, by decide, by norm_num [abs_of_pos], ?_⟩
  rw [emergency_cycle_armed_stop 1 (7 / 2) speed_over_threshold_three_and_a_half]
  rfl

/-- With signal 0x20 stored and the mailbox empty, later cycles only blink: the scheduler state
of the Motion Task does not change. -/
theorem emergency_run_blinking (speeds : List ℚ) (z : Nat) (b : Bool) :
    motionSuspendedFrom b
      (emergency_run { emergency := 0x20, z := z } (quietCycles speeds)).2 = b := by
  induction speeds generalizing z with
  | nil => rfl
  | cons s rest ih =>
    show motionSuspendedFrom b (emergency_run _ ((none, s) :: quietCycles rest)).2 = b
    rw [emergency_run_cons, emergency_cycle_blink_only, motionSuspendedFrom_append]
    exact ih (c_lnot z)

/-- With signal 0x30 stored, a cycle whose speed is not over the threshold suspends the Motion
Task for good and re-initializes and disables the driver. -/
theorem emergency_run_armed_stop (z : Nat) (s : ℚ) (post : List ℚ) (b : Bool)
    (hover : speed_over_threshold s = false) :
    motionSuspendedFrom b
      (emergency_run { emergency := 0x30, z := z } (quietCycles (s :: post))).2 = true ∧
    [Action.vTaskSuspend, Action.stepperInit, Action.stepper_disable_motor].Sublist
      (emergency_run { emergency := 0x30, z := z } (quietCycles (s :: post))).2 := by
  show motionSuspendedFrom b (emergency_run _ ((none, s) :: quietCycles post)).2 = true ∧
    List.Sublist _ (emergency_run _ ((none, s) :: quietCycles post)).2
  rw [emergency_run_cons, emergency_cycle_armed_stop z s hover, motionSuspendedFrom_append]
  constructor
  · exact emergency_run_blinking post (c_lnot z) _
  · exact List.Sublist.trans (List.Sublist.cons _ (List.Sublist.refl _))
      (List.sublist_append_left _ _)

theorem emergency_run_armed (pre : List ℚ) (s : ℚ) (post : List ℚ) (hs : |s| ≤ 3) (z : Nat)
    (b : Bool) :
    motionSuspendedFrom b
      (emergency_run { emergency := 0x30, z := z } (quietCycles (pre ++ s :: post))).2 = true ∧
    [Action.vTaskSuspend, Action.stepperInit, Action.stepper_disable_motor].Sublist
      (emergency_run { emergency := 0x30, z := z } (quietCycles (pre ++ s :: post))).2 := by
  induction pre generalizing z with
  | nil => exact emergency_run_armed_stop z s post b (speed_over_threshold_of_abs_le s hs)
  | cons x rest ih =>
    cases hx : speed_over_threshold x with
    | false => exact emergency_run_armed_stop z x (rest ++ s :: post) b hx
    | true =>
      show motionSuspendedFrom b
          (emergency_run _ ((none, x) :: quietCycles (rest ++ s :: post))).2 = true ∧
        List.Sublist _ (emergency_run _ ((none, x) :: quietCycles (rest ++ s :: post))).2
      rw [emergency_run_cons, emergency_cycle_armed_deferred z x hx,
        motionSuspendedFrom_append]
      exact ⟨(ih (c_lnot z)).1, List.Sublist.trans (ih (c_lnot z)).2
        (List.sublist_append_right _ _)⟩

/-- C4. Hard stop is followed by a suspend: start with stored signal 0x01 and keep the Emergency
mailbox empty. The first cycle (at any speed `s0`) leaves the signal at 0x30. Let the later
speed readings be `pre`, then a reading `s` of magnitude at most 3.0 (in particular the first
such reading, when every reading of `pre` exceeds 3.0), then any readings `post`. After the
cycle of `s` and after every later cycle, the Motion Task is suspended and the calls
suspend, initialize driver, disable driver have been made in this order. -/
theorem hard_stop_then_suspend (z : Nat) (s0 : ℚ) (pre : List ℚ) (s : ℚ) (post : List ℚ)
    (hs : |s| ≤ 3) :
    (emergency_cycle { emergency := 0x01, z := z } none s0).1.emergency = 0x30 ∧
    motionSuspended
      (emergency_run { emergency := 0x01, z := z }
        (quietCycles (s0 :: (pre ++ s :: post)))).2 = true ∧
    [Action.vTaskSuspend, Action.stepperInit, Action.stepper_disable_motor].Sublist
      (emergency_run { emergency := 0x01, z := z }
        (quietCycles (s0 :: (pre ++ s :: post)))).2 := by
  refine ⟨by rw [emergency_cycle_hard_only], ?_⟩
  show motionSuspended
      (emergency_run _ ((none, s0) :: quietCycles (pre ++ s :: post))).2 = true ∧
    List.Sublist _ (emergency_run _ ((none, s0) :: quietCycles (pre ++ s :: post))).2
  unfold motionSuspended
  rw [emergency_run_cons, emergency_cycle_hard_only, motionSuspendedFrom_append]
  exact ⟨(emergency_run_armed pre s post hs z _).1,
    List.Sublist.trans (emergency_run_armed pre s post hs z false).2
      (List.sublist_append_right _ _)⟩

/-- Witness for C4: speeds 20 at the hard stop, then 12.5, 8 and 5 while the motor ramps down,
then 2.5, then 0 twice. -/
theorem hard_stop_then_suspend_witness :
    (emergency_cycle { emergency := 0x01, z := 1 } none 20).1.emergency = 0x30 ∧
    motionSuspended
      (emergency_run { emergency := 0x01, z := 1 }
        (quietCycles (20 :: ([25 / 2, 8, 5] ++ (5 / 2) :: [0, 0])))).2 = true ∧
    [Action.vTaskSuspend, Action.stepperInit, Action.stepper_disable_motor].Sublist
      (emergency_run { emergency := 0x01, z := 1 }
        (quietCycles (20 :: ([25 / 2, 8, 5] ++ (5 / 2) :: [0, 0])))).2 :=
  hard_stop_then_suspend 1 20 [25 / 2, 8, 5] (5 / 2) [0, 0] (by norm_num [abs_le])


/-! ### Comparisons of floating values with zero -/

theorem CFloat.num_lt_zero (q : ℚ) : CFloat.num q < 0 ↔ q < 0 := by
  show CFloat.blt (CFloat.num q) (CFloat.num 0) = true ↔ q < 0
  simp [CFloat.blt]

theorem CFloat.zero_le_num (q : ℚ) : 0 ≤ CFloat.num q ↔ 0 ≤ q := by
  show CFloat.ble (CFloat.num 0) (CFloat.num q) = true ↔ 0 ≤ q
  simp [CFloat.ble]

theorem CFloat.not_lt_zero_of_zero_le (x : CFloat) (h : 0 ≤ x) : ¬ x < 0 := by
  cases x with
  | num q =>
    rw [CFloat.num_lt_zero]
    exact not_lt.mpr ((CFloat.zero_le_num q).mp h)
  | pos_inf => exact fun h2 => Bool.noConfusion h2
  | neg_inf => exact absurd h (fun h2 => Bool.noConfusion h2)
  | nan => exact fun h2 => Bool.noConfusion h2

theorem scan_set_prefix (width : Nat) (accept : Char → Bool) (s : List Char) :
    scan_set width accept s <+: s :=
  (List.takeWhile_prefix accept).trans (List.take_prefix width s)

/-- What a successful `sscanf` of line 211 has read: the input is `name`, then `=`, then
`value`, then the rest, and `bytesRead` counts exactly `name`, `=` and `value`. -/
theorem sscanf_pair_some (s name value : List Char) (bytesRead : Nat)
    (h : sscanf_pair s = some (name, value, bytesRead)) :
    name ≠ [] ∧ value ≠ [] ∧ bytesRead = name.length + 1 + value.length ∧
    s = name ++ '=' :: (value ++ s.drop bytesRead) := by
  unfold sscanf_pair at h
  obtain ⟨t, ht⟩ := scan_set_prefix 63 (fun c => c != '=') s
  have hdrop : s.drop (scan_set 63 (fun c => c != '=') s).length = t := by
    have h0 := @List.drop_left' Char (scan_set 63 (fun c => c != '=') s) t _ rfl
    rw [ht] at h0
    exact h0
  by_cases hname : scan_set 63 (fun c => c != '=') s = []
  · simp [hname] at h
  · simp only [hname, if_false, hdrop] at h
    cases t with
    | nil => simp at h
    | cons c r =>
      dsimp only at h
      by_cases hc : c = '='
      · subst hc
        obtain ⟨u, hu⟩ := scan_set_prefix 63 (fun c => c != '&' && c != ' ') r
        by_cases hvalue : scan_set 63 (fun c => c != '&' && c != ' ') r = []
        · simp [hvalue] at h
        · simp only [hvalue, if_false, if_true, Option.some.injEq, Prod.mk.injEq] at h
          obtain ⟨h1, h2, h3⟩ := h
          rw [h1] at ht h3
          rw [h2] at hu h3
          rw [h1] at hname
          rw [h2] at hvalue
          have hs : s = name ++ '=' :: (value ++ u) := by
            rw [hu]; exact ht.symm
          have hd : s.drop bytesRead = u := by
            have hs2 : s = (name ++ '=' :: value) ++ u := by rw [hs]; simp
            rw [hs2]
            apply List.drop_left'
            simp
            omega
          rw [hd]
          exact ⟨hname, hvalue, h3.symm, hs⟩
      · simp [hc] at h

theorem advance_suffix (s : List Char) (bytesRead : Nat) : advance s bytesRead <:+ s := by
  unfold advance
  dsimp only
  split
  · rw [List.drop_drop]
    exact List.drop_suffix _ s
  · exact List.drop_suffix _ s

theorem advance_length_le (s : List Char) (bytesRead : Nat) :
    (advance s bytesRead).length ≤ s.length - bytesRead := by
  unfold advance
  dsimp only
  split
  · rw [List.length_drop, List.length_drop]
    omega
  · rw [List.length_drop]

/-- One pass of the loop that does not leave it: at least three characters were read, all of
them inside the string, and the new position is a later position of the same string. -/
theorem query_loop_pass (s name value : List Char) (bytesRead : Nat)
    (h : sscanf_pair s = some (name, value, bytesRead)) :
    3 ≤ bytesRead ∧ bytesRead ≤ s.length ∧ advance s bytesRead <:+ s ∧
    (advance s bytesRead).length + bytesRead ≤ s.length := by
  obtain ⟨hn, hv, hb, hs⟩ := sscanf_pair_some s name value bytesRead h
  have hnl : 1 ≤ name.length := List.length_pos.mpr hn
  have hvl : 1 ≤ value.length := List.length_pos.mpr hv
  have hlen : s.length = name.length + 1 + value.length + (s.drop bytesRead).length := by
    conv_lhs => rw [hs]
    simp only [List.length_append, List.length_cons]
    omega
  have hle : bytesRead ≤ s.length := by omega
  have hadv := advance_length_le s bytesRead
  exact ⟨by omega, hle, advance_suffix s bytesRead, by omega⟩

/-- The loop leaves within `length / 3 + 1` passes, with a result that does not depend on the
bound. -/
theorem query_loop_terminates (lib : CLib) (n : Nat) :
    ∀ (s : List Char), s.length ≤ n → ∀ p : motor_parameters_t,
      ∃ r, ∀ fuel, s.length < 3 * fuel → query_loop lib fuel s p = some r := by
  induction n with
  | zero =>
    intro s hs p
    have hnil : s = [] := List.length_eq_zero.mp (Nat.le_zero.mp hs)
    subst hnil
    refine ⟨p, fun fuel hf => ?_⟩
    cases fuel with
    | zero => simp at hf
    | succ f => rfl
  | succ n ih =>
    intro s hs p
    cases hscan : sscanf_pair s with
    | none =>
      refine ⟨p, fun fuel hf => ?_⟩
      cases fuel with
      | zero => simp at hf
      | succ f => simp only [query_loop, hscan]
    | some t =>
      obtain ⟨name, value, bytesRead⟩ := t
      obtain ⟨h3, -, -, hlen⟩ := query_loop_pass s name value bytesRead hscan
      by_cases hnext : advance s bytesRead = []
      · refine ⟨(parse_query_parameter lib name value p).2, fun fuel hf => ?_⟩
        cases fuel with
        | zero => simp at hf
        | succ f => simp only [query_loop, hscan, hnext, if_true]
      · obtain ⟨r, hr⟩ := ih (advance s bytesRead) (by omega)
          (parse_query_parameter lib name value p).2
        refine ⟨r, fun fuel hf => ?_⟩
        cases fuel with
        | zero => simp at hf
        | succ f =>
          simp only [query_loop, hscan, hnext, if_false]
          exact hr f (by omega)

theorem strchr_some (s : List Char) (c : Char) (t : List Char) (h : strchr s c = some t) :
    t <:+ s ∧ t.head? = some c := by
  induction s with
  | nil => simp [strchr] at h
  | cons x rest ih =>
    unfold strchr at h
    split at h
    · rename_i hx
      simp only [Option.some.injEq] at h
      subst h
      exact ⟨List.suffix_refl _, by simp [hx]⟩
    · obtain ⟨h1, h2⟩ := ih h
      exact ⟨h1.trans (List.suffix_cons x rest), h2⟩

/-- The parse of any request string returns, and the bound on the passes is immaterial once it
is at least the length of the request. -/
theorem process_query_string_fuel_total (lib : CLib) (query : List Char)
    (params : motor_parameters_t) :
    ∃ result, ∀ fuel, query.length ≤ fuel →
      process_query_string_fuel lib fuel query params = some result := by
  unfold process_query_string_fuel
  cases hq : strchr query '?' with
  | none => exact ⟨params, fun _ _ => rfl⟩
  | some t =>
    obtain ⟨hsuf, hhead⟩ := strchr_some query '?' t hq
    have hlen : t.length ≤ query.length := hsuf.length_le
    have hpos : 1 ≤ t.length := by
      cases t with
      | nil => simp at hhead
      | cons a b => simp
    obtain ⟨r, hr⟩ := query_loop_terminates lib (t.drop 1).length (t.drop 1) le_rfl params
    refine ⟨r, fun fuel hf => ?_⟩
    dsimp only
    apply hr
    rw [List.length_drop]
    omega

theorem process_query_string_total (lib : CLib) (query : List Char)
    (params : motor_parameters_t) :
    ∃ result, process_query_string lib query params = some result := by
  obtain ⟨r, hr⟩ := process_query_string_fuel_total lib query params
  exact ⟨r, hr query.length le_rfl⟩

/-- C10. The query parser always terminates: for every request string (its characters before
the terminating NUL) `process_query_string` returns a result, and the same result under any
bound on the passes of its loop that is at least the length of the string; every pass that
does not leave the loop has read at least three characters (`name`, `=`, `value`), all inside
the string, and the new read position is a later position of the same string, never beyond
the end of it. -/
theorem process_query_string_terminates (lib : CLib) (query : List Char)
    (params : motor_parameters_t) :
    (∃ result, process_query_string lib query params = some result ∧
      ∀ fuel, query.length ≤ fuel →
        process_query_string_fuel lib fuel query params = some result) ∧
    (∀ (s name value : List Char) (bytesRead : Nat),
      s <:+ query → sscanf_pair s = some (name, value, bytesRead) →
        3 ≤ bytesRead ∧ bytesRead ≤ s.length ∧ advance s bytesRead <:+ query ∧
        (advance s bytesRead).length + bytesRead ≤ s.length) := by
  constructor
  · obtain ⟨r, hr⟩ := process_query_string_fuel_total lib query params
    exact ⟨r, hr query.length le_rfl, hr⟩
  · intro s name value bytesRead hsuf hscan
    obtain ⟨h1, h2, h3, h4⟩ := query_loop_pass s name value bytesRead hscan
    exact ⟨h1, h2, h3.trans hsuf, h4⟩

/-! ### The parse of well-formed pairs -/

theorem scan_set_eq (accept : Char → Bool) (rest : List Char)
    (hrest : ∀ c, rest.head? = some c → accept c = false) :
    ∀ (k : List Char) (width : Nat), k.length ≤ width → (∀ x ∈ k, accept x = true) →
      scan_set width accept (k ++ rest) = k := by
  intro k
  induction k with
  | nil =>
    intro width _ _
    unfold scan_set
    cases rest with
    | nil => simp
    | cons c r =>
      cases width with
      | zero => simp
      | succ w =>
        have hc := hrest c rfl
        simp [List.takeWhile, hc]
  | cons x k ih =>
    intro width hlen hk
    cases width with
    | zero => simp at hlen
    | succ w =>
      have hx : accept x = true := hk x (List.mem_cons_self _ _)
      have ih2 := ih w (by simpa using hlen) (fun y hy => hk y (List.mem_cons_of_mem _ hy))
      unfold scan_set at ih2 ⊢
      show List.takeWhile accept (List.take (w + 1) (x :: (k ++ rest))) = x :: k
      rw [List.take_succ_cons, List.takeWhile_cons_of_pos hx, ih2]

/-- A pair that fits, followed by nothing, by `&` or by a space, is read whole. -/
theorem sscanf_pair_fit (k v after : List Char) (hfit : pair_fits (k, v))
    (hafter : ∀ c, after.head? = some c → c = '&' ∨ c = ' ') :
    sscanf_pair (k ++ '=' :: (v ++ after)) = some (k, v, k.length + 1 + v.length) := by
  obtain ⟨hk0, hk63, hkeq, hv0, hv63, hvamp, hvsp⟩ := hfit
  have hname : scan_set 63 (fun c => c != '=') (k ++ '=' :: (v ++ after)) = k := by
    apply scan_set_eq _ _ _ k 63 hk63
    · intro x hx
      have : x ≠ '=' := fun h => hkeq (h ▸ hx)
      simpa using this
    · intro c hc
      simp only [List.head?_cons, Option.some.injEq] at hc
      subst hc
      simp
  have hvalue : scan_set 63 (fun c => c != '&' && c != ' ') (v ++ after) = v := by
    apply scan_set_eq _ _ _ v 63 hv63
    · intro x hx
      have h1 : x ≠ '&' := fun h => hvamp (h ▸ hx)
      have h2 : x ≠ ' ' := fun h => hvsp (h ▸ hx)
      simp [h1, h2]
    · intro c hc
      rcases hafter c hc with h | h <;> simp [h]
  unfold sscanf_pair
  simp only [hname, hk0, if_false]
  have hdrop : List.drop k.length (k ++ '=' :: (v ++ after)) = '=' :: (v ++ after) :=
    List.drop_left' rfl
  rw [hdrop]
  simp only [if_true, hvalue, hv0, if_false]

/-- After the last pair the next `sscanf` fails. -/
theorem sscanf_pair_tail (tail : List Char) (htail : tail_stops tail) :
    sscanf_pair tail = none := by
  rcases htail with h | ⟨-, h⟩
  · subst h
    rfl
  · have hsplit : tail = tail.take 63 ++ tail.drop 63 := (List.take_append_drop 63 tail).symm
    have hname : scan_set 63 (fun c => c != '=') tail = tail.take 63 := by
      have h63 : ∀ x ∈ tail.take 63, x ≠ '=' := by
        intro x hx hxe
        apply h
        rw [← hxe]
        exact (List.take_subset_take_left tail (by decide : 63 ≤ 64)) hx
      unfold scan_set
      rw [List.takeWhile_eq_self_iff]
      intro x hx
      simpa using h63 x hx
    unfold sscanf_pair
    simp only [hname]
    split
    · rfl
    · rw [List.length_take]
      cases hd : List.drop (min 63 tail.length) tail with
      | nil => rfl
      | cons c r =>
        dsimp only
        have hc : c ≠ '=' := by
          intro hce
          apply h
          have hlt : 63 < tail.length := by
            by_contra hcon
            have : min 63 tail.length = tail.length := by omega
            rw [this, List.drop_length] at hd
            exact absurd hd (by simp)
          have hmin : min 63 tail.length = 63 := by omega
          rw [hmin] at hd
          have hget : tail[63]? = some c := by
            rw [← List.head?_drop, hd]
            rfl
          rw [← hce]
          have : (tail.take 64)[63]? = some c := by
            rw [List.getElem?_take_of_lt (by decide)]
            exact hget
          exact List.getElem?_mem this
        rw [if_neg hc]

theorem parse_query_parameter_unrecognized (lib : CLib) (name value : List Char)
    (params : motor_parameters_t) (h : name ∉ recognized_keys) :
    parse_query_parameter lib name value params = (0, params) := by
  simp only [recognized_keys, List.mem_cons, List.mem_singleton, not_or, List.not_mem_nil,
    not_false_eq_true, and_true, or_false] at h
  obtain ⟨h1, h2, h3, h4, h5, h6, h7⟩ := h
  unfold parse_query_parameter
  simp only [h1, h2, h3, h4, h5, h6, h7, if_false]

theorem merge_recognized_cons (lib : CLib) (k v : List Char)
    (rest : List (List Char × List Char)) (params : motor_parameters_t) :
    merge_recognized lib ((k, v) :: rest) params =
      merge_recognized lib rest (parse_query_parameter lib k v params).2 := by
  unfold merge_recognized
  by_cases hk : k ∈ recognized_keys
  · rw [List.filter_cons_of_pos (by simpa using hk)]
    rfl
  · rw [List.filter_cons_of_neg (by simpa using hk),
      parse_query_parameter_unrecognized lib k v params hk]

theorem query_of_pairs_cons (k v : List Char) (rest : List (List Char × List Char)) :
    query_of_pairs ((k, v) :: rest) =
      k ++ '=' :: (v ++ (if rest = [] then [] else '&' :: query_of_pairs rest)) := by
  cases rest with
  | nil => simp [query_of_pairs]
  | cons a b => simp [query_of_pairs]

theorem query_of_pairs_ne_nil (kv : List Char × List Char)
    (rest : List (List Char × List Char)) (hfit : pair_fits kv) :
    query_of_pairs (kv :: rest) ≠ [] := by
  obtain ⟨k, v⟩ := kv
  rw [query_of_pairs_cons]
  have hk : k ≠ [] := hfit.1
  cases k with
  | nil => exact absurd rfl hk
  | cons a b => simp

/-- The loop over well-formed pairs merges every pair in order; unrecognized ones leave the
store as it is. -/
theorem query_loop_pairs (lib : CLib) (tail : List Char) (htail : tail_stops tail) :
    ∀ (pairs : List (List Char × List Char)), (∀ kv ∈ pairs, pair_fits kv) →
      ∀ (p : motor_parameters_t) (fuel : Nat), pairs.length < fuel →
        query_loop lib fuel (query_of_pairs pairs ++ tail) p =
          some (merge_recognized lib pairs p) := by
  intro pairs
  induction pairs with
  | nil =>
    intro _ p fuel hfuel
    cases fuel with
    | zero => simp at hfuel
    | succ f =>
      show query_loop lib (f + 1) tail p = some p
      simp only [query_loop, sscanf_pair_tail tail htail]
  | cons kv rest ih =>
    intro hfit p fuel hfuel
    obtain ⟨k, v⟩ := kv
    have hkv : pair_fits (k, v) := hfit (k, v) (List.mem_cons_self _ _)
    have hrest : ∀ kv ∈ rest, pair_fits kv := fun kv h => hfit kv (List.mem_cons_of_mem _ h)
    cases fuel with
    | zero => simp at hfuel
    | succ f =>
      have hf : rest.length < f := by simpa using hfuel
      rw [merge_recognized_cons, query_of_pairs_cons]
      have hs : (k ++ '=' :: (v ++ (if rest = [] then [] else '&' :: query_of_pairs rest))) ++
          tail = k ++ '=' :: (v ++ ((if rest = [] then [] else '&' :: query_of_pairs rest) ++
            tail)) := by simp
      rw [hs]
      by_cases hr : rest = []
      · subst hr
        simp only [if_true, List.nil_append]
        have hafter : ∀ c, tail.head? = some c → c = '&' ∨ c = ' ' := by
          intro c hc
          rcases htail with h | ⟨h, -⟩
          · rw [h] at hc; simp at hc
          · rw [h] at hc
            exact Or.inr (Option.some.inj hc).symm
        have hscan := sscanf_pair_fit k v tail hkv hafter
        have hdrop : List.drop (k.length + 1 + v.length) (k ++ '=' :: (v ++ tail)) = tail := by
          have : k ++ '=' :: (v ++ tail) = (k ++ '=' :: v) ++ tail := by simp
          rw [this]
          exact List.drop_left' (by simp; omega)
        have hadv : advance (k ++ '=' :: (v ++ tail)) (k.length + 1 + v.length) = tail := by
          unfold advance
          rw [hdrop]
          rcases htail with h | ⟨h, -⟩
          · subst h; rfl
          · dsimp only
            rw [h, if_neg (by decide)]
        simp only [query_loop, hscan, hadv]
        by_cases ht : tail = []
        · rw [if_pos ht]
          rfl
        · rw [if_neg ht]
          exact ih hrest _ f hf
      · simp only [hr, if_false]
        have hafter : ∀ c, (('&' :: query_of_pairs rest) ++ tail).head? = some c →
            c = '&' ∨ c = ' ' := by
          intro c hc
          simp only [List.cons_append, List.head?_cons, Option.some.injEq] at hc
          exact Or.inl hc.symm
        have hscan := sscanf_pair_fit k v (('&' :: query_of_pairs rest) ++ tail) hkv hafter
        have hdrop : List.drop (k.length + 1 + v.length)
            (k ++ '=' :: (v ++ (('&' :: query_of_pairs rest) ++ tail))) =
            ('&' :: query_of_pairs rest) ++ tail := by
          have : k ++ '=' :: (v ++ (('&' :: query_of_pairs rest) ++ tail)) =
              (k ++ '=' :: v) ++ (('&' :: query_of_pairs rest) ++ tail) := by simp
          rw [this]
          exact List.drop_left' (by simp; omega)
        have hadv : advance (k ++ '=' :: (v ++ (('&' :: query_of_pairs rest) ++ tail)))
            (k.length + 1 + v.length) = query_of_pairs rest ++ tail := by
          unfold advance
          rw [hdrop]
          rfl
        have hne : query_of_pairs rest ++ tail ≠ [] := by
          cases rest with
          | nil => exact absurd rfl hr
          | cons a b =>
            have := query_of_pairs_ne_nil a b (hrest a (List.mem_cons_self _ _))
            simp [this]
        simp only [query_loop, hscan, hadv, hne, if_false]
        exact ih hrest _ f hf

theorem strchr_append (pre rest : List Char) (c : Char) (hpre : c ∉ pre) :
    strchr (pre ++ c :: rest) c = some (c :: rest) := by
  induction pre with
  | nil => simp [strchr]
  | cons x pre ih =>
    have hx : x ≠ c := fun h => hpre (h ▸ List.mem_cons_self _ _)
    have hp : c ∉ pre := fun h => hpre (List.mem_cons_of_mem _ h)
    simp only [List.cons_append, strchr, hx, if_false]
    exact ih hp

/-- The parse of a request whose query is made of well-formed pairs. -/
theorem process_query_string_pairs (lib : CLib) (pre tail : List Char)
    (pairs : List (List Char × List Char)) (params : motor_parameters_t)
    (hpre : '?' ∉ pre) (hfit : ∀ kv ∈ pairs, pair_fits kv) (htail : tail_stops tail) :
    process_query_string lib (pre ++ '?' :: (query_of_pairs pairs ++ tail)) params =
      some (merge_recognized lib pairs params) := by
  obtain ⟨r, hr⟩ := process_query_string_fuel_total lib
    (pre ++ '?' :: (query_of_pairs pairs ++ tail)) params
  have h1 := hr (pre ++ '?' :: (query_of_pairs pairs ++ tail)).length le_rfl
  have h2 := hr ((pre ++ '?' :: (query_of_pairs pairs ++ tail)).length + pairs.length + 1)
    (by omega)
  unfold process_query_string
  rw [h1, ← h2]
  unfold process_query_string_fuel
  rw [strchr_append pre _ '?' hpre]
  exact query_loop_pairs lib tail htail pairs hfit params _ (by omega)

/-- C7 (counterexample). A pair with an unrecognized key of 64 characters, followed by `rs=5`:
the first `sscanf` reads 63 characters of the key, finds no `=` after them and the loop is left;
the store keeps rotational_speed 0 although merging the recognized pair `rs=5` gives 5. -/
theorem long_key_aborts_parse :
    process_query_string lib32
      ("GET /setParams?".toList ++
        query_of_pairs [(List.replicate 64 'k', ['1']), (['r', 's'], ['5'])])
      motor_pars_zero = some motor_pars_zero ∧
    List.replicate 64 'k' ∉ recognized_keys ∧
    (merge_recognized lib32 [(List.replicate 64 'k', ['1']), (['r', 's'], ['5'])]
      motor_pars_zero).rotational_speed = CFloat.num 5 ∧
    motor_pars_zero.rotational_speed ≠ CFloat.num 5 := by
  refine ⟨by decide, by decide, ?_, by decide!⟩
  decide!

/-- C7 (amended). Unrecognized keys are skipped without aborting the parse, for pairs that
fit the 63-character conversions: a name outside rs, ra, rd, cis, fis, sm, dt makes
`parse_query_parameter` return 0 and leave the store unchanged; and for every request made of
text without `?`, then `?`, then `key=value` pairs separated by `&` in which every key has 1 to
63 characters and no `=` and every value has 1 to 63 characters and neither `&` nor a space,
then nothing or a space-led rest without `=` in its first 64 characters,
`process_query_string` returns the store obtained by merging only the recognized pairs in
order. -/
theorem unrecognized_keys_skipped (lib : CLib) (pre tail : List Char)
    (pairs : List (List Char × List Char)) (params : motor_parameters_t)
    (hpre : '?' ∉ pre) (hfit : ∀ kv ∈ pairs, pair_fits kv) (htail : tail_stops tail) :
    (∀ name value : List Char, ∀ p : motor_parameters_t, name ∉ recognized_keys →
      parse_query_parameter lib name value p = (0, p)) ∧
    process_query_string lib (pre ++ '?' :: (query_of_pairs pairs ++ tail)) params =
      some (merge_recognized lib pairs params) :=
  ⟨fun name value p h => parse_query_parameter_unrecognized lib name value p h,
    process_query_string_pairs lib pre tail pairs params hpre hfit htail⟩

/-- Witness for C7 (amended): two unrecognized keys among three recognized ones, in a request
line that ends with the protocol version. -/
theorem unrecognized_keys_skipped_witness :
    (∀ name value : List Char, ∀ p : motor_parameters_t, name ∉ recognized_keys →
      parse_query_parameter lib32 name value p = (0, p)) ∧
    process_query_string lib32
      ("GET /setParams".toList ++ '?' ::
        (query_of_pairs [("foo".toList, "1".toList), ("rs".toList, "-5".toList),
          ("bar".toList, "x".toList), ("sm".toList, "9".toList),
          ("fis".toList, "4096".toList)] ++ " HTTP/1.1\r\n\r\n".toList))
      motor_pars_zero =
      some (merge_recognized lib32
        [("foo".toList, "1".toList), ("rs".toList, "-5".toList),
          ("bar".toList, "x".toList), ("sm".toList, "9".toList),
          ("fis".toList, "4096".toList)] motor_pars_zero) :=
  unrecognized_keys_skipped lib32 "GET /setParams".toList " HTTP/1.1\r\n\r\n".toList
    [("foo".toList, "1".toList), ("rs".toList, "-5".toList),
      ("bar".toList, "x".toList), ("sm".toList, "9".toList),
      ("fis".toList, "4096".toList)] motor_pars_zero (by decide) (by decide) (by decide)

/-! ### Clamping of the fields -/

theorem c_long_to_ulong_of_fits (lib : CLib) (v : Int) (h0 : 0 ≤ v)
    (h1 : v < (2 : Int) ^ lib.ulong_bits) : ((c_long_to_ulong lib v : Nat) : Int) = v := by
  unfold c_long_to_ulong
  rw [Int.emod_eq_of_lt h0 h1, Int.toNat_of_nonneg h0]

/-- C5 (counterexample). The value -1 for `fis` is not stored as given: the conversion to
`unsigned long` stores 4294967295 on a 32-bit target, also through the whole parse of the
request `GET /setParams?fis=-1`. -/
theorem negative_final_position_wraps :
    lib32.atol "-1".toList = -1 ∧
    (parse_query_parameter lib32 ['f', 'i', 's'] "-1".toList motor_pars_zero).2.final_position =
      4294967295 ∧
    (((parse_query_parameter lib32 ['f', 'i', 's'] "-1".toList
      motor_pars_zero).2.final_position : Nat) : Int) ≠ lib32.atol "-1".toList ∧
    process_query_string lib32 "GET /setParams?fis=-1".toList motor_pars_zero =
      some { motor_pars_zero with final_position := 4294967295 } := by
  refine ⟨by decide, by decide, by decide, by decide⟩

/-- C5 (amended). Field clamping: for every recognized key and every numeric value,
`parse_query_parameter` returns 1 and stores the validated value in that key's field, leaving
the other fields as they were: a negative rs, ra or rd is stored as 0 and a non-negative one as
given; cis is stored as given; fis is stored after conversion to `unsigned long`, so a
non-negative fis that fits the type is stored as given; sm outside 0..2 is stored as 0 and sm in
0..2 as given; a negative dt is stored as 0 and a non-negative one as given. In particular the
request `GET /setParams?rs=-5&sm=9&fis=4096`, alone or followed by a rest that stops the parse,
yields rotational_speed 0, step_mode 0, final_position 4096 (for a C library that converts
these three texts to their values and an `unsigned long` that holds 4096). -/
theorem field_clamping (lib : CLib) (value : List Char) (params : motor_parameters_t) :
    (lib.atof value < 0 → parse_query_parameter lib ['r', 's'] value params =
      (1, { params with rotational_speed := 0 })) ∧
    (0 ≤ lib.atof value → parse_query_parameter lib ['r', 's'] value params =
      (1, { params with rotational_speed := lib.atof value })) ∧
    (lib.atof value < 0 → parse_query_parameter lib ['r', 'a'] value params =
      (1, { params with rotational_accel := 0 })) ∧
    (0 ≤ lib.atof value → parse_query_parameter lib ['r', 'a'] value params =
      (1, { params with rotational_accel := lib.atof value })) ∧
    (lib.atof value < 0 → parse_query_parameter lib ['r', 'd'] value params =
      (1, { params with rotational_decel := 0 })) ∧
    (0 ≤ lib.atof value → parse_query_parameter lib ['r', 'd'] value params =
      (1, { params with rotational_decel := lib.atof value })) ∧
    parse_query_parameter lib ['c', 'i', 's'] value params =
      (1, { params with current_position := lib.atol value }) ∧
    parse_query_parameter lib ['f', 'i', 's'] value params =
      (1, { params with final_position := c_long_to_ulong lib (lib.atol value) }) ∧
    (0 ≤ lib.atol value → lib.atol value < (2 : Int) ^ lib.ulong_bits →
      (((parse_query_parameter lib ['f', 'i', 's'] value params).2.final_position : Nat) : Int) =
        lib.atol value) ∧
    (lib.atoi value < 0 ∨ 2 < lib.atoi value →
      parse_query_parameter lib ['s', 'm'] value params = (1, { params with step_mode := 0 })) ∧
    (0 ≤ lib.atoi value ∧ lib.atoi value ≤ 2 →
      parse_query_parameter lib ['s', 'm'] value params =
        (1, { params with step_mode := lib.atoi value })) ∧
    (lib.atoi value < 0 →
      parse_query_parameter lib ['d', 't'] value params = (1, { params with dwell_time := 0 })) ∧
    (0 ≤ lib.atoi value →
      parse_query_parameter lib ['d', 't'] value params =
        (1, { params with dwell_time := lib.atoi value })) ∧
    (∀ tail : List Char, tail_stops tail →
      lib.atof "-5".toList = CFloat.num (-5) → lib.atoi "9".toList = 9 →
      lib.atol "4096".toList = 4096 →
      (4096 : Int) < (2 : Int) ^ lib.ulong_bits →
      process_query_string lib ("GET /setParams?rs=-5&sm=9&fis=4096".toList ++ tail) params =
        some { params with rotational_speed := 0, step_mode := 0, final_position := 4096 }) := by
  refine ⟨?_, ?_, ?_, ?_, ?_, ?_, ?_, ?_, ?_, ?_, ?_, ?_, ?_, ?_⟩
  · intro h
    simp [parse_query_parameter, h]
  · intro h
    simp [parse_query_parameter, CFloat.not_lt_zero_of_zero_le _ h]
  · intro h
    simp [parse_query_parameter, h]
  · intro h
    simp [parse_query_parameter, CFloat.not_lt_zero_of_zero_le _ h]
  · intro h
    simp [parse_query_parameter, h]
  · intro h
    simp [parse_query_parameter, CFloat.not_lt_zero_of_zero_le _ h]
  · simp [parse_query_parameter]
  · simp [parse_query_parameter]
  · intro h0 h1
    have h := c_long_to_ulong_of_fits lib (lib.atol value) h0 h1
    simpa [parse_query_parameter] using h
  · intro h
    have h2 : lib.atoi value < 0 ∨ lib.atoi value > 2 := h
    simp [parse_query_parameter, h2]
  · intro h
    have h2 : ¬ (lib.atoi value < 0 ∨ lib.atoi value > 2) := by
      rintro (h3 | h3)
      · exact absurd h.1 (not_le.mpr h3)
      · exact absurd h.2 (not_le.mpr h3)
    simp only [parse_query_parameter, h2]
    simp
  · intro h
    simp [parse_query_parameter, h]
  · intro h
    simp [parse_query_parameter, not_lt.mpr h]
  · intro tail htail hrs hsm hfis hbits
    have hq : "GET /setParams?rs=-5&sm=9&fis=4096".toList ++ tail =
        "GET /setParams".toList ++ '?' ::
          (query_of_pairs [("rs".toList, "-5".toList), ("sm".toList, "9".toList),
            ("fis".toList, "4096".toList)] ++ tail) := by
      simp [query_of_pairs]
    rw [hq, process_query_string_pairs lib _ tail _ params (by decide) (by decide) htail]
    have hu := c_long_to_ulong_of_fits lib 4096 (by decide) hbits
    have hu2 : c_long_to_ulong lib 4096 = 4096 := by exact_mod_cast hu
    have hrs2 : lib.atof ['-', '5'] = CFloat.num (-5) := hrs
    have hneg : CFloat.num (-5) < 0 := (CFloat.num_lt_zero (-5)).mpr (by norm_num)
    have hsm2 : lib.atoi ['9'] = 9 := hsm
    have hfis2 : lib.atol ['4', '0', '9', '6'] = 4096 := hfis
    simp [merge_recognized, recognized_keys, parse_query_parameter, hrs2, hsm2, hfis2, hu2,
      hneg]

/-- Witness for C5 (amended): the decimal C library on a 32-bit target, the request of the
scenario followed by the protocol version, and the value text `-5`. -/
theorem field_clamping_witness :
    parse_query_parameter lib32 ['r', 's'] "-5".toList motor_pars_zero =
      (1, { motor_pars_zero with rotational_speed := 0 }) ∧
    process_query_string lib32
      ("GET /setParams?rs=-5&sm=9&fis=4096".toList ++ " HTTP/1.1\r\n\r\n".toList)
      motor_pars_zero =
      some { motor_pars_zero with rotational_speed := 0, step_mode := 0,
                                  final_position := 4096 } :=
  ⟨(field_clamping lib32 "-5".toList motor_pars_zero).1 (by decide!),
    (field_clamping lib32 "-5".toList motor_pars_zero).2.2.2.2.2.2.2.2.2.2.2.2.2
      " HTTP/1.1\r\n\r\n".toList (by decide) (by decide!) (by decide) (by decide) (by decide)⟩

/-! ### What a parse can change -/

/-- Induction along the loop: a property of the store that every call of
`parse_query_parameter` keeps, for the names that occur in the string before a `=`, holds after
the loop. -/
theorem query_loop_induct (lib : CLib) (P : motor_parameters_t → Prop) (N : List Char → Prop)
    (hP : ∀ name value p, N name → P p → P (parse_query_parameter lib name value p).2) :
    ∀ (fuel : Nat) (s : List Char) (p r : motor_parameters_t),
      (∀ name, name ++ ['='] <:+: s → N name) → P p →
      query_loop lib fuel s p = some r → P r := by
  intro fuel
  induction fuel with
  | zero =>
    intro s p r _ _ h
    simp [query_loop] at h
  | succ f ih =>
    intro s p r hN hp h
    cases hscan : sscanf_pair s with
    | none =>
      simp only [query_loop, hscan, Option.some.injEq] at h
      exact h ▸ hp
    | some t =>
      obtain ⟨name, value, bytesRead⟩ := t
      obtain ⟨-, -, -, hs⟩ := sscanf_pair_some s name value bytesRead hscan
      have hname : N name := by
        apply hN
        refine ⟨[], value ++ List.drop bytesRead s, ?_⟩
        conv_rhs => rw [hs]
        simp
      have hp1 := hP name value p hname hp
      simp only [query_loop, hscan] at h
      split at h
      · simp only [Option.some.injEq] at h
        exact h ▸ hp1
      · refine ih _ _ r (fun nm hnm => hN nm ?_) hp1 h
        exact hnm.trans (advance_suffix s bytesRead).isInfix

theorem process_query_string_induct (lib : CLib) (P : motor_parameters_t → Prop)
    (N : List Char → Prop)
    (hP : ∀ name value p, N name → P p → P (parse_query_parameter lib name value p).2)
    (query : List Char) (p r : motor_parameters_t)
    (hN : ∀ name, name ++ ['='] <:+: query → N name) (hp : P p)
    (h : process_query_string lib query p = some r) : P r := by
  unfold process_query_string process_query_string_fuel at h
  cases hq : strchr query '?' with
  | none =>
    rw [hq] at h
    simp only [Option.some.injEq] at h
    exact h ▸ hp
  | some t =>
    rw [hq] at h
    obtain ⟨hsuf, -⟩ := strchr_some query '?' t hq
    refine query_loop_induct lib P N hP _ _ p r (fun nm hnm => hN nm ?_) hp h
    exact hnm.trans ((List.drop_suffix 1 t).trans hsuf).isInfix

/-- A field is untouched by the parse when the text `key=` occurs nowhere in the request. -/
theorem process_query_string_keeps (lib : CLib) (P : motor_parameters_t → Prop)
    (key : List Char)
    (hP : ∀ name value p, name ≠ key → P p → P (parse_query_parameter lib name value p).2)
    (query : List Char) (p r : motor_parameters_t) (hkey : ¬ key ++ ['='] <:+: query)
    (hp : P p) (h : process_query_string lib query p = some r) : P r :=
  process_query_string_induct lib P (fun name => name ≠ key) hP query p r
    (fun _ hnm hnk => hkey (hnk ▸ hnm)) hp h

/-- Every call of `parse_query_parameter` other than for `key` keeps the value `f` reads, when
`f` reads a field only `key` writes. -/
theorem parse_keeps_rotational_speed (lib : CLib) (name value : List Char)
    (p : motor_parameters_t) (h : name ≠ ['r', 's']) :
    (parse_query_parameter lib name value p).2.rotational_speed = p.rotational_speed := by
  unfold parse_query_parameter
  simp only [h, if_false]
  split_ifs <;> rfl

theorem parse_keeps_rotational_accel (lib : CLib) (name value : List Char)
    (p : motor_parameters_t) (h : name ≠ ['r', 'a']) :
    (parse_query_parameter lib name value p).2.rotational_accel = p.rotational_accel := by
  unfold parse_query_parameter
  simp only [h, if_false]
  split_ifs <;> rfl

theorem parse_keeps_rotational_decel (lib : CLib) (name value : List Char)
    (p : motor_parameters_t) (h : name ≠ ['r', 'd']) :
    (parse_query_parameter lib name value p).2.rotational_decel = p.rotational_decel := by
  unfold parse_query_parameter
  simp only [h, if_false]
  split_ifs <;> rfl

theorem parse_keeps_current_position (lib : CLib) (name value : List Char)
    (p : motor_parameters_t) (h : name ≠ ['c', 'i', 's']) :
    (parse_query_parameter lib name value p).2.current_position = p.current_position := by
  unfold parse_query_parameter
  simp only [h, if_false]
  split_ifs <;> rfl

theorem parse_keeps_final_position (lib : CLib) (name value : List Char)
    (p : motor_parameters_t) (h : name ≠ ['f', 'i', 's']) :
    (parse_query_parameter lib name value p).2.final_position = p.final_position := by
  unfold parse_query_parameter
  simp only [h, if_false]
  split_ifs <;> rfl

theorem parse_keeps_step_mode (lib : CLib) (name value : List Char)
    (p : motor_parameters_t) (h : name ≠ ['s', 'm']) :
    (parse_query_parameter lib name value p).2.step_mode = p.step_mode := by
  unfold parse_query_parameter
  simp only [h, if_false]
  split_ifs <;> rfl

theorem parse_keeps_dwell_time (lib : CLib) (name value : List Char)
    (p : motor_parameters_t) (h : name ≠ ['d', 't']) :
    (parse_query_parameter lib name value p).2.dwell_time = p.dwell_time := by
  unfold parse_query_parameter
  simp only [h, if_false]
  split_ifs <;> rfl

/-! ### The two routes -/

theorem strncmp14_routes_differ (recv_buf : List Char)
    (h : strncmp14_eq recv_buf GET_setParams = true) :
    strncmp14_eq recv_buf GET_getParams = false := by
  unfold strncmp14_eq at h ⊢
  have h1 : List.take 14 recv_buf = GET_setParams := by simpa using h
  rw [h1]
  decide

theorem xQueueSend_motor_pars (st : ServerState) :
    (xQueueSend_motor st).motor_pars = st.motor_pars := by
  unfold xQueueSend_motor
  split <;> rfl

/-- The `/setParams` route: the parse result becomes the store, is offered to the mailbox and
is reported. -/
theorem handle_request_setParams (lib : CLib) (st : ServerState) (recv_buf : List Char)
    (stepper_pos : Int) (stepper_speed : CFloat)
    (h : strncmp14_eq recv_buf GET_setParams = true) :
    ∃ pars, process_query_string lib recv_buf st.motor_pars = some pars ∧
      handle_request lib st recv_buf stepper_pos stepper_speed =
        some (xQueueSend_motor { st with motor_pars := pars }, Response.setParams pars) := by
  obtain ⟨pars, hpars⟩ := process_query_string_total lib recv_buf st.motor_pars
  refine ⟨pars, hpars, ?_⟩
  unfold handle_request
  rw [strncmp14_routes_differ recv_buf h, h, hpars]
  simp only [Bool.false_eq_true, if_false, if_true, xQueueSend_motor_pars]

/-- The `/getParams` route: position and speed of the driver overwrite the store, which is
then reported. -/
theorem handle_request_getParams (lib : CLib) (st : ServerState) (recv_buf : List Char)
    (stepper_pos : Int) (stepper_speed : CFloat)
    (h : strncmp14_eq recv_buf GET_getParams = true) :
    handle_request lib st recv_buf stepper_pos stepper_speed =
      some ({ st with motor_pars := { st.motor_pars with current_position := stepper_pos
                                                         rotational_speed := stepper_speed } },
        Response.getParams { st.motor_pars with current_position := stepper_pos
                                                rotational_speed := stepper_speed }
          (if stepper_speed ≥ 0 then 1 else 0)) := by
  unfold handle_request
  rw [h]
  simp only [if_true]

/-- C6 (counterexample). From the zeroed store, `GET /setParams?rs=100` reports
rotational_speed 100; the `GET /getParams` that follows, with the driver at speed 0, reports
rotational_speed 0. -/
theorem round_trip_fails_for_speed :
    handle_request lib32 server_start "GET /setParams?rs=100".toList 0 0 =
      some ({ motor_pars := { motor_pars_zero with rotational_speed := CFloat.num 100 }
              motor_queue := [{ motor_pars_zero with rotational_speed := CFloat.num 100 }]
              placed := [{ motor_pars_zero with rotational_speed := CFloat.num 100 }] },
        Response.setParams { motor_pars_zero with rotational_speed := CFloat.num 100 }) ∧
    handle_request lib32
      { motor_pars := { motor_pars_zero with rotational_speed := CFloat.num 100 }
        motor_queue := [{ motor_pars_zero with rotational_speed := CFloat.num 100 }]
        placed := [{ motor_pars_zero with rotational_speed := CFloat.num 100 }] }
      "GET /getParams".toList 0 0 =
      some ({ motor_pars := motor_pars_zero
              motor_queue := [{ motor_pars_zero with rotational_speed := CFloat.num 100 }]
              placed := [{ motor_pars_zero with rotational_speed := CFloat.num 100 }] },
        Response.getParams motor_pars_zero 1) ∧
    ({ motor_pars_zero with rotational_speed := CFloat.num 100 } : motor_parameters_t).rotational_speed ≠
      motor_pars_zero.rotational_speed := by
  refine ⟨by decide!, by decide!, by decide!⟩

/-- C6 (amended). setParams/getParams round trip: for every request the `/setParams` route
accepts and every prior state, the request is answered, and so is a `/getParams` request that
follows it; the values of rotational_accel, rotational_decel, final_position, step_mode and
dwell_time reported by the two responses are equal, while the rotational_speed and
current_position reported by `/getParams` are those the driver returns at that time; and every
field whose key does not occur in the `/setParams` request (the text `key=` is nowhere in it)
is reported with its prior value. -/
theorem set_get_round_trip (lib : CLib) (st : ServerState) (set_buf get_buf : List Char)
    (pos1 pos2 : Int) (speed1 speed2 : CFloat)
    (hset : strncmp14_eq set_buf GET_setParams = true)
    (hget : strncmp14_eq get_buf GET_getParams = true) :
    ∃ (st1 st2 : ServerState) (r1 r2 : motor_parameters_t) (direction : Int),
      handle_request lib st set_buf pos1 speed1 = some (st1, Response.setParams r1) ∧
      handle_request lib st1 get_buf pos2 speed2 =
        some (st2, Response.getParams r2 direction) ∧
      r2.rotational_accel = r1.rotational_accel ∧
      r2.rotational_decel = r1.rotational_decel ∧
      r2.final_position = r1.final_position ∧
      r2.step_mode = r1.step_mode ∧
      r2.dwell_time = r1.dwell_time ∧
      r2.rotational_speed = speed2 ∧
      r2.current_position = pos2 ∧
      (¬ "rs=".toList <:+: set_buf → r1.rotational_speed = st.motor_pars.rotational_speed) ∧
      (¬ "ra=".toList <:+: set_buf → r1.rotational_accel = st.motor_pars.rotational_accel) ∧
      (¬ "rd=".toList <:+: set_buf → r1.rotational_decel = st.motor_pars.rotational_decel) ∧
      (¬ "cis=".toList <:+: set_buf → r1.current_position = st.motor_pars.current_position) ∧
      (¬ "fis=".toList <:+: set_buf → r1.final_position = st.motor_pars.final_position) ∧
      (¬ "sm=".toList <:+: set_buf → r1.step_mode = st.motor_pars.step_mode) ∧
      (¬ "dt=".toList <:+: set_buf → r1.dwell_time = st.motor_pars.dwell_time) := by
  obtain ⟨pars, hpars, hh⟩ := handle_request_setParams lib st set_buf pos1 speed1 hset
  refine ⟨_, _, pars, _, _, hh, handle_request_getParams lib _ get_buf pos2 speed2 hget,
    by simp only [xQueueSend_motor_pars], by simp only [xQueueSend_motor_pars],
    by simp only [xQueueSend_motor_pars], by simp only [xQueueSend_motor_pars],
    by simp only [xQueueSend_motor_pars], rfl, rfl, ?_, ?_, ?_, ?_, ?_, ?_, ?_⟩
  · intro hk
    exact process_query_string_keeps lib
      (fun q => q.rotational_speed = st.motor_pars.rotational_speed) ['r', 's']
      (fun name value p hn hp => (parse_keeps_rotational_speed lib name value p hn).trans hp)
      set_buf st.motor_pars pars hk rfl hpars
  · intro hk
    exact process_query_string_keeps lib
      (fun q => q.rotational_accel = st.motor_pars.rotational_accel) ['r', 'a']
      (fun name value p hn hp => (parse_keeps_rotational_accel lib name value p hn).trans hp)
      set_buf st.motor_pars pars hk rfl hpars
  · intro hk
    exact process_query_string_keeps lib
      (fun q => q.rotational_decel = st.motor_pars.rotational_decel) ['r', 'd']
      (fun name value p hn hp => (parse_keeps_rotational_decel lib name value p hn).trans hp)
      set_buf st.motor_pars pars hk rfl hpars
  · intro hk
    exact process_query_string_keeps lib
      (fun q => q.current_position = st.motor_pars.current_position) ['c', 'i', 's']
      (fun name value p hn hp => (parse_keeps_current_position lib name value p hn).trans hp)
      set_buf st.motor_pars pars hk rfl hpars
  · intro hk
    exact process_query_string_keeps lib
      (fun q => q.final_position = st.motor_pars.final_position) ['f', 'i', 's']
      (fun name value p hn hp => (parse_keeps_final_position lib name value p hn).trans hp)
      set_buf st.motor_pars pars hk rfl hpars
  · intro hk
    exact process_query_string_keeps lib
      (fun q => q.step_mode = st.motor_pars.step_mode) ['s', 'm']
      (fun name value p hn hp => (parse_keeps_step_mode lib name value p hn).trans hp)
      set_buf st.motor_pars pars hk rfl hpars
  · intro hk
    exact process_query_string_keeps lib
      (fun q => q.dwell_time = st.motor_pars.dwell_time) ['d', 't']
      (fun name value p hn hp => (parse_keeps_dwell_time lib name value p hn).trans hp)
      set_buf st.motor_pars pars hk rfl hpars

/-- Witness for C6 (amended): prior store with speed 40 and dwell time 9, a request that sets
ra and sm, and a driver that reports position 1200 and speed 35.5 at the `/getParams`. -/
theorem set_get_round_trip_witness :
    ∃ (st1 st2 : ServerState) (r1 r2 : motor_parameters_t) (direction : Int),
      handle_request lib32
        { motor_pars := { motor_pars_zero with rotational_speed := CFloat.num 40, dwell_time := 9 }
          motor_queue := [], placed := [] }
        "GET /setParams?ra=7&sm=2 HTTP/1.1".toList 0 0 = some (st1, Response.setParams r1) ∧
      handle_request lib32 st1 "GET /getParams HTTP/1.1".toList 1200 (CFloat.num (71 / 2)) =
        some (st2, Response.getParams r2 direction) ∧
      r2.rotational_accel = r1.rotational_accel ∧
      r2.rotational_decel = r1.rotational_decel ∧
      r2.final_position = r1.final_position ∧
      r2.step_mode = r1.step_mode ∧
      r2.dwell_time = r1.dwell_time ∧
      r2.rotational_speed = CFloat.num (71 / 2) ∧
      r2.current_position = 1200 ∧
      (¬ "rs=".toList <:+: "GET /setParams?ra=7&sm=2 HTTP/1.1".toList →
        r1.rotational_speed = CFloat.num 40) ∧
      (¬ "ra=".toList <:+: "GET /setParams?ra=7&sm=2 HTTP/1.1".toList →
        r1.rotational_accel = 0) ∧
      (¬ "rd=".toList <:+: "GET /setParams?ra=7&sm=2 HTTP/1.1".toList →
        r1.rotational_decel = 0) ∧
      (¬ "cis=".toList <:+: "GET /setParams?ra=7&sm=2 HTTP/1.1".toList →
        r1.current_position = 0) ∧
      (¬ "fis=".toList <:+: "GET /setParams?ra=7&sm=2 HTTP/1.1".toList →
        r1.final_position = 0) ∧
      (¬ "sm=".toList <:+: "GET /setParams?ra=7&sm=2 HTTP/1.1".toList → r1.step_mode = 0) ∧
      (¬ "dt=".toList <:+: "GET /setParams?ra=7&sm=2 HTTP/1.1".toList → r1.dwell_time = 9) :=
  set_get_round_trip lib32
    { motor_pars := { motor_pars_zero with rotational_speed := CFloat.num 40, dwell_time := 9 }
      motor_queue := [], placed := [] }
    "GET /setParams?ra=7&sm=2 HTTP/1.1".toList "GET /getParams HTTP/1.1".toList 0 1200 0
    (CFloat.num (71 / 2)) (by decide) (by decide)

/-! ### Commands placed on the Motor-Command mailbox -/

/-- A value the C library converts to NaN passes the test `accel < 0` and is queued: with the
decimal library, `/setParams?ra=nan` places a command whose rotational_accel is NaN, which is
neither negative nor `>= 0`. -/
theorem nan_acceleration_is_queued :
    lib32.atof "nan".toList = CFloat.nan ∧
    server_run lib32 server_start [Event.request "GET /setParams?ra=nan".toList 0 0] =
      some { motor_pars := { motor_pars_zero with rotational_accel := CFloat.nan }
             motor_queue := [{ motor_pars_zero with rotational_accel := CFloat.nan }]
             placed := [{ motor_pars_zero with rotational_accel := CFloat.nan }] } ∧
    ¬ CFloat.nan < 0 ∧ ¬ 0 ≤ CFloat.nan := by
  refine ⟨by decide!, by decide!, by decide, by decide⟩

/-- Witness for C10: the request of the scenario, and its first pass, which reads `rs=-5`. -/
theorem process_query_string_terminates_witness :
    (∃ result,
      process_query_string lib32 "GET /setParams?rs=-5&sm=9&fis=4096".toList motor_pars_zero =
        some result) ∧
    (3 ≤ 5 ∧ 5 ≤ "rs=-5&sm=9&fis=4096".toList.length ∧
      advance "rs=-5&sm=9&fis=4096".toList 5 <:+
        "GET /setParams?rs=-5&sm=9&fis=4096".toList ∧
      (advance "rs=-5&sm=9&fis=4096".toList 5).length + 5 ≤
        "rs=-5&sm=9&fis=4096".toList.length) :=
  ⟨(process_query_string_terminates lib32 "GET /setParams?rs=-5&sm=9&fis=4096".toList
      motor_pars_zero).1.imp (fun _ h => h.1),
    (process_query_string_terminates lib32 "GET /setParams?rs=-5&sm=9&fis=4096".toList
      motor_pars_zero).2 "rs=-5&sm=9&fis=4096".toList "rs".toList "-5".toList 5
      (by decide) (by decide)⟩

end RTOS_SteppingMotor
